import Mathlib

/-!
Verification of avrlibs-core: the TWI (I2C) master protocol engine.

A shallow embedding of `src/src/twiMasterBase.cpp` (the composite operations of
`TwiMasterBase`), `src/twiMasterBase.h` (the backend contract and `twiDir_t`) and
`src/twiMasterTwi.h` (the hardware backend `TwiMaster`).

Conventions of the embedding:

* A backend is a record of state transformers over an arbitrary state type `σ`; every
  pure-virtual method of `TwiMasterBase` is one field. The state is threaded explicitly.
* `uint8_t` values are natural numbers. Where 8-bit wrap-around matters (the `--count`
  of the `do ... while` loops, the `device++` and `i++` of the `for` loops, the
  truncation of `(device << 1) | read`), the reduction `% 256` is written out.
* A caller-owned buffer `uint8_t * data` is a function from the index (relative to the
  pointer passed in) to the byte stored there.
* Loops are defined by recursion on a bound on the number of iterations and return
  `none` when the bound is exhausted. The composite operations pass the bound the
  8-bit counters imply; the `*_traced` lemmas show it is never exhausted.
* To speak about the order of backend calls, `traced` wraps any backend into one that
  behaves identically and appends every call, with its result, to a log.
-/

namespace AvrTwi

/-! ## `twiMasterBase.h`: direction and backend contract -/

/-- The enumeration `twiDir_t` of `twiMasterBase.h`. -/
inductive twiDir_t where
  | TwiDirWrite
  | TwiDirRead
  deriving DecidableEq, Repr

/-- The integer value of a `twiDir_t` enumerator: `TwiDirWrite = 0`, `TwiDirRead = 1`. -/
def twiDir_t.toNat : twiDir_t → Nat
  | .TwiDirWrite => 0
  | .TwiDirRead => 1

/-- The pure-virtual (backend) methods of class `TwiMasterBase`, as state transformers
over the backend state `σ`. -/
structure TwiMasterBase (σ : Type) where
  /-- Source: `virtual bool start (uint8_t device, twiDir_t read) = 0;` -/
  start : Nat → twiDir_t → σ → Bool × σ
  /-- Source: `virtual bool repeatStart (uint8_t device, twiDir_t read) = 0;` -/
  repeatStart : Nat → twiDir_t → σ → Bool × σ
  /-- Source: `virtual void stop() = 0;` -/
  stop : σ → σ
  /-- Source: `virtual bool writeDevice (uint8_t data) = 0;` -/
  writeDevice : Nat → σ → Bool × σ
  /-- Source: `virtual uint8_t readDeviceWithAck() = 0;` -/
  readDeviceWithAck : σ → Nat × σ
  /-- Source: `virtual uint8_t readDeviceWithNak() = 0;` -/
  readDeviceWithNak : σ → Nat × σ

/-- The 8-bit pre-decrement `--count` on a `uint8_t`. -/
def decr8 (count : Nat) : Nat := (count + 255) % 256

/-- The 8-bit post-increment `i++` on a `uint8_t` (the value left in the variable). -/
def incr8 (i : Nat) : Nat := (i + 1) % 256

namespace TwiMasterBase

variable {σ : Type}

/-! ## `twiMasterBase.cpp`: composite operations -/

/-- The loop of `writeBytes`:
`do { if (!writeDevice (*(data++))) break; } while(--count);`
`i` is the number of times `data` has been incremented. -/
def writeBytesLoop (B : TwiMasterBase σ) (data : Nat → Nat) :
    Nat → Nat → Nat → σ → Option σ
  | 0, _, _, _ => none
  | fuel + 1, count, i, s =>
    let r := B.writeDevice (data i) s
    if r.1 = false then some r.2
    else if decr8 count ≠ 0 then writeBytesLoop B data fuel (decr8 count) (i + 1) r.2
    else some r.2

/-- Source: `bool TwiMasterBase::writeBytes (uint8_t device, uint8_t * data, uint8_t count, bool sendStop)` -/
def writeBytes (B : TwiMasterBase σ) (device : Nat) (data : Nat → Nat) (count : Nat)
    (sendStop : Bool) (s : σ) : Option (Bool × σ) :=
  let r := B.start device .TwiDirWrite s
  if r.1 then
    match writeBytesLoop B data 256 count 0 r.2 with
    | none => none
    | some s1 => some (true, if sendStop then B.stop s1 else s1)
  else some (false, r.2)

/-- The read loop shared, textually, by `readBytes` and the multi-byte `readRegister`:
`do { if (count == 1) *(data++) = readDeviceWithNak(); else *(data++) = readDeviceWithAck(); } while (--count);` -/
def readLoop (B : TwiMasterBase σ) :
    Nat → Nat → Nat → (Nat → Nat) → σ → Option ((Nat → Nat) × σ)
  | 0, _, _, _, _ => none
  | fuel + 1, count, i, data, s =>
    let r := if count = 1 then B.readDeviceWithNak s else B.readDeviceWithAck s
    let data1 := Function.update data i r.1
    if decr8 count ≠ 0 then readLoop B fuel (decr8 count) (i + 1) data1 r.2
    else some (data1, r.2)

/-- Source: `bool TwiMasterBase::readBytes(uint8_t device, uint8_t * data, uint8_t count, bool sendStop)`;
the result carries the buffer as the call leaves it. -/
def readBytes (B : TwiMasterBase σ) (device : Nat) (data : Nat → Nat) (count : Nat)
    (sendStop : Bool) (s : σ) : Option (Bool × (Nat → Nat) × σ) :=
  let r := B.start device .TwiDirRead s
  if r.1 then
    match readLoop B 256 count 0 data r.2 with
    | none => none
    | some (data1, s1) => some (true, data1, if sendStop then B.stop s1 else s1)
  else some (false, data, r.2)

/-- Source: `bool TwiMasterBase::writeRegister (uint8_t device, uint8_t address, uint8_t data)` -/
def writeRegister (B : TwiMasterBase σ) (device address data : Nat) (s : σ) : Bool × σ :=
  let r1 := B.start device .TwiDirWrite s
  if r1.1 then
    let r2 := B.writeDevice address r1.2
    if r2.1 then
      let r3 := B.writeDevice data r2.2
      if r3.1 then (true, B.stop r3.2)
      else (false, r3.2)
    else (false, r2.2)
  else (false, r1.2)

/-- The loop of the multi-byte `writeRegister`:
`for (uint8_t i = 0; i < count; i++) { if (!writeDevice (data[i])) ret = false; }` -/
def writeRegisterLoop (B : TwiMasterBase σ) (data : Nat → Nat) (count : Nat) :
    Nat → Nat → Bool → σ → Option (Bool × σ)
  | 0, _, _, _ => none
  | fuel + 1, i, ret, s =>
    if i < count then
      let r := B.writeDevice (data i) s
      writeRegisterLoop B data count fuel (incr8 i) (if r.1 = false then false else ret) r.2
    else some (ret, s)

/-- Source: `bool TwiMasterBase::writeRegister (uint8_t device, uint8_t address, uint8_t * data, uint8_t count)` -/
def writeRegisterMulti (B : TwiMasterBase σ) (device address : Nat) (data : Nat → Nat)
    (count : Nat) (s : σ) : Option (Bool × σ) :=
  let r1 := B.start device .TwiDirWrite s
  if r1.1 then
    let r2 := B.writeDevice address r1.2
    if r2.1 then
      match writeRegisterLoop B data count 256 0 true r2.2 with
      | none => none
      | some (ret, s1) => some (ret, B.stop s1)
    else some (false, r2.2)
  else some (false, r1.2)

/-- Source: `bool TwiMasterBase::readRegister(uint8_t device, uint8_t address, uint8_t * data)`;
`data` is the content of the pointed-to byte before the call, the result carries its
content after the call. -/
def readRegister (B : TwiMasterBase σ) (device address : Nat) (data : Nat) (s : σ) :
    Bool × Nat × σ :=
  let r1 := B.start device .TwiDirWrite s
  if r1.1 then
    let r2 := B.writeDevice address r1.2
    if r2.1 then
      let r3 := B.repeatStart device .TwiDirRead r2.2
      if r3.1 then
        let readData := B.readDeviceWithNak r3.2
        (true, readData.1, B.stop readData.2)
      else (false, data, r3.2)
    else (false, data, r2.2)
  else (false, data, r1.2)

/-- Source: `bool TwiMasterBase::readRegister(uint8_t device, uint8_t address, uint8_t * data, uint8_t count)` -/
def readRegisterMulti (B : TwiMasterBase σ) (device address : Nat) (data : Nat → Nat)
    (count : Nat) (s : σ) : Option (Bool × (Nat → Nat) × σ) :=
  let r1 := B.start device .TwiDirWrite s
  if r1.1 then
    let r2 := B.writeDevice address r1.2
    if r2.1 then
      let r3 := B.repeatStart device .TwiDirRead r2.2
      if r3.1 then
        match readLoop B 256 count 0 data r3.2 with
        | none => none
        | some (data1, s1) => some (true, data1, B.stop s1)
      else some (false, data, r3.2)
    else some (false, data, r2.2)
  else some (false, data, r1.2)

/-- The loop of `scanBus`:
`for (uint8_t device = 1; device < 0x80; device++) { bool rc = start (device, TwiDirRead);
 if (rc) { readDeviceWithNak(); stop(); (*function) (device); } }`.
The callback `function` may act on the whole state. -/
def scanBusLoop (B : TwiMasterBase σ) (function : Nat → σ → σ) :
    Nat → Nat → σ → Option σ
  | 0, _, _ => none
  | fuel + 1, device, s =>
    if device < 0x80 then
      let rc := B.start device .TwiDirRead s
      let s1 := if rc.1 then function device (B.stop (B.readDeviceWithNak rc.2).2) else rc.2
      scanBusLoop B function fuel (incr8 device) s1
    else some s

/-- Source: `void TwiMasterBase::scanBus(void (*function)(uint8_t device))` -/
def scanBus (B : TwiMasterBase σ) (function : Nat → σ → σ) (s : σ) : Option σ :=
  scanBusLoop B function 128 1 s

end TwiMasterBase

/-! ## Call tracing -/

/-- One backend call (or callback invocation) together with its arguments and result. -/
inductive Call where
  | start (device : Nat) (read : twiDir_t) (ack : Bool)
  | repeatStart (device : Nat) (read : twiDir_t) (ack : Bool)
  | stop
  | writeDevice (data : Nat) (ack : Bool)
  | readDeviceWithAck (ret : Nat)
  | readDeviceWithNak (ret : Nat)
  | callback (device : Nat)
  deriving DecidableEq, Repr

/-- The backend `B`, made to append each call and its result to a log. -/
def traced {σ : Type} (B : TwiMasterBase σ) : TwiMasterBase (σ × List Call) where
  start device read s :=
    ((B.start device read s.1).1,
      (B.start device read s.1).2, s.2 ++ [Call.start device read (B.start device read s.1).1])
  repeatStart device read s :=
    ((B.repeatStart device read s.1).1,
      (B.repeatStart device read s.1).2,
      s.2 ++ [Call.repeatStart device read (B.repeatStart device read s.1).1])
  stop s := (B.stop s.1, s.2 ++ [Call.stop])
  writeDevice data s :=
    ((B.writeDevice data s.1).1,
      (B.writeDevice data s.1).2, s.2 ++ [Call.writeDevice data (B.writeDevice data s.1).1])
  readDeviceWithAck s :=
    ((B.readDeviceWithAck s.1).1,
      (B.readDeviceWithAck s.1).2, s.2 ++ [Call.readDeviceWithAck (B.readDeviceWithAck s.1).1])
  readDeviceWithNak s :=
    ((B.readDeviceWithNak s.1).1,
      (B.readDeviceWithNak s.1).2, s.2 ++ [Call.readDeviceWithNak (B.readDeviceWithNak s.1).1])

/-- The callback `function`, made to append its invocation to the log. -/
def tracedFn {σ : Type} (function : Nat → σ → σ) : Nat → σ × List Call → σ × List Call :=
  fun device s => (function device s.1, s.2 ++ [Call.callback device])

/-! ## A simulated device, for concrete runs -/

/-- Behaviour of a simulated bus: which addresses acknowledge, which written bytes are
acknowledged (by position in the run), and which byte a read returns (by position). -/
structure SimDevice where
  addrAck : Nat → Bool
  dataAck : Nat → Bool
  readVal : Nat → Nat

/-- State of the simulated bus: number of bytes written and read so far. -/
structure SimState where
  nWritten : Nat
  nRead : Nat
  deriving DecidableEq, Repr

/-- The backend given by a simulated device. -/
def simBackend (D : SimDevice) : TwiMasterBase SimState where
  start device _ s := (D.addrAck device, s)
  repeatStart device _ s := (D.addrAck device, s)
  stop s := s
  writeDevice _ s := (D.dataAck s.nWritten, { s with nWritten := s.nWritten + 1 })
  readDeviceWithAck s := (D.readVal s.nRead, { s with nRead := s.nRead + 1 })
  readDeviceWithNak s := (D.readVal s.nRead, { s with nRead := s.nRead + 1 })

/-- A device that acknowledges every address and every byte; the `n`-th read returns `n`. -/
def ackAll : SimDevice := ⟨fun _ => true, fun _ => true, fun n => n⟩

/-- A device that never acknowledges its address. -/
def nakAddr : SimDevice := ⟨fun _ => false, fun _ => true, fun n => n⟩

/-- A device that acknowledges its address and the register-address byte (the first
byte written) but no later byte. -/
def nakData : SimDevice := ⟨fun _ => true, fun n => decide (n = 0), fun n => n⟩

/-- A device that acknowledges its address but no written byte. -/
def nakWrite : SimDevice := ⟨fun _ => true, fun _ => false, fun n => n⟩

/-- A device that acknowledges its address and every written byte except the second. -/
def nakSecond : SimDevice := ⟨fun _ => true, fun n => decide (n ≠ 1), fun n => n⟩

/-! ## Reading a trace -/

/-- An acknowledge-checked call (`start`, `repeatStart`, `writeDevice`) that was not
acknowledged. -/
def Call.nak : Call → Bool
  | .start _ _ ack => !ack
  | .repeatStart _ _ ack => !ack
  | .writeDevice _ ack => !ack
  | _ => false

/-- A call that transfers a data byte: `writeDevice`, `readDeviceWithAck`,
`readDeviceWithNak`. -/
def Call.isData : Call → Bool
  | .writeDevice _ _ => true
  | .readDeviceWithAck _ => true
  | .readDeviceWithNak _ => true
  | _ => false

/-- Some acknowledge-checked call of the trace was not acknowledged. -/
def hasNak (t : List Call) : Bool := t.any Call.nak

/-- The trace ends with its first unacknowledged call, if it has one: no call at all
follows it. -/
def endsAtNak : List Call → Bool
  | [] => true
  | c :: t => if c.nak then t.isEmpty else endsAtNak t

/-- No data byte is written or read after the first unacknowledged call of the trace. -/
def noDataAfterNak : List Call → Bool
  | [] => true
  | c :: t => if c.nak then t.all (fun c1 => !c1.isData) else noDataAfterNak t

/-- The `start` calls of a trace, as (address, direction) pairs, in order. -/
def startCalls : List Call → List (Nat × twiDir_t)
  | [] => []
  | .start device read _ :: t => (device, read) :: startCalls t
  | _ :: t => startCalls t

/-- The addresses the callback was invoked with, in order. -/
def callbacks : List Call → List Nat
  | [] => []
  | .callback device :: t => device :: callbacks t
  | _ :: t => callbacks t

/-- The calls `scanBus` makes for one address: a lone unacknowledged `start`, or an
acknowledged `start`, the dummy read, `stop` and the callback. -/
def scanBlock (ack : Nat → Bool) (val : Nat → Nat) (device : Nat) : List Call :=
  if ack device then
    [Call.start device .TwiDirRead true, Call.readDeviceWithNak (val device), Call.stop,
      Call.callback device]
  else [Call.start device .TwiDirRead false]

/-- Number of iterations of a `do ... while (--count)` loop over an 8-bit `count`
that is not left early: `count`, or 256 when `count` is 0. -/
def iters (count : Nat) : Nat := if count = 0 then 256 else count

/-! ## `twiMasterTwi.h`: the hardware backend `TwiMaster` -/

/-- The registers of the TWI peripheral that `TwiMaster` accesses. -/
inductive Reg where
  | TWCR
  | TWDR
  | TWSR
  | TWBR
  deriving DecidableEq, Repr

/-- The TWI peripheral as the CPU sees it: every register access is an event of the
hardware state `η` (writing `TWCR` starts bus activity, reading is `volatile`). -/
structure TwiPeripheral (η : Type) where
  write : Reg → Nat → η → η
  read : Reg → η → Nat × η

/-- The macro `_BV(bit)` of avr-libc, `(1 << (bit))`. -/
def _BV (bit : Nat) : Nat := 1 <<< bit

/-- Bit numbers of `TWCR` (avr-libc device headers). -/
def TWINT : Nat := 7
/-- Bit `TWEA` of `TWCR`. -/
def TWEA : Nat := 6
/-- Bit `TWSTA` of `TWCR`. -/
def TWSTA : Nat := 5
/-- Bit `TWSTO` of `TWCR`. -/
def TWSTO : Nat := 4
/-- Bit `TWEN` of `TWCR`. -/
def TWEN : Nat := 2

/-- Status mask `TW_STATUS_MASK` of avr-libc `<util/twi.h>`: the five status bits of `TWSR`. -/
def TW_STATUS_MASK : Nat := 0xF8
/-- Status code `TW_START` of `<util/twi.h>`: start condition transmitted. -/
def TW_START : Nat := 0x08
/-- Status code `TW_REP_START`: repeated start condition transmitted. -/
def TW_REP_START : Nat := 0x10
/-- Status code `TW_MT_SLA_ACK`: SLA+W transmitted, ACK received. -/
def TW_MT_SLA_ACK : Nat := 0x18
/-- Status code `TW_MR_SLA_ACK`: SLA+R transmitted, ACK received. -/
def TW_MR_SLA_ACK : Nat := 0x40
/-- Status code `TW_MT_DATA_ACK`: data transmitted, ACK received. -/
def TW_MT_DATA_ACK : Nat := 0x28

namespace TwiMaster

variable {η : Type}

/-- Source: `void waitTransComplete ()`: `while (!(TWCR & _BV(TWINT))) continue;`, with a bound
on the number of polls; `none` when the flag was not seen within the bound. -/
def waitTransComplete (H : TwiPeripheral η) : Nat → η → Option η
  | 0, _ => none
  | fuel + 1, h =>
    let r := H.read .TWCR h
    if r.1 &&& _BV TWINT = 0 then waitTransComplete H fuel r.2 else some r.2

/-- The macro `TW_STATUS` of `<util/twi.h>`, `(TWSR & TW_STATUS_MASK)`. -/
def TW_STATUS (H : TwiPeripheral η) (h : η) : Nat × η :=
  ((H.read .TWSR h).1 &&& TW_STATUS_MASK, (H.read .TWSR h).2)

/-- The local `uint8_t slarw = (device << 1) | read;` of `TwiMaster::start`. -/
def slarw (device : Nat) (read : twiDir_t) : Nat := ((device <<< 1) ||| read.toNat) % 256

/-- Source: `bool TwiMaster::start(uint8_t device, twiDir_t read)`; `fuel` bounds the polls of
each `waitTransComplete`. -/
def start (H : TwiPeripheral η) (fuel : Nat) (device : Nat) (read : twiDir_t) (h : η) :
    Option (Bool × η) :=
  let h1 := H.write .TWCR (_BV TWINT ||| _BV TWSTA ||| _BV TWEN) h
  match waitTransComplete H fuel h1 with
  | none => none
  | some h2 =>
    let twst := TW_STATUS H h2
    if twst.1 ≠ TW_START ∧ twst.1 ≠ TW_REP_START then some (false, twst.2)
    else
      let h3 := H.write .TWDR (slarw device read) twst.2
      let h4 := H.write .TWCR (_BV TWINT ||| _BV TWEN ||| _BV TWEA) h3
      match waitTransComplete H fuel h4 with
      | none => none
      | some h5 =>
        let twst2 := TW_STATUS H h5
        if twst2.1 ≠ TW_MT_SLA_ACK ∧ twst2.1 ≠ TW_MR_SLA_ACK then some (false, twst2.2)
        else some (true, twst2.2)

end TwiMaster

/-- The peripheral `H`, made to append every register write to a log. -/
def logged {η : Type} (H : TwiPeripheral η) : TwiPeripheral (η × List (Reg × Nat)) where
  write reg v s := (H.write reg v s.1, s.2 ++ [(reg, v)])
  read reg s := ((H.read reg s.1).1, (H.read reg s.1).2, s.2)

/-- A simulated peripheral whose state is the list of values `TWSR` will show after
each completed step: `TWINT` is seen set on the second poll of `TWCR`, every read of
`TWSR` consumes one status. The Boolean is the poll parity. -/
def simTwi : TwiPeripheral (Bool × List Nat) where
  write _ _ s := (false, s.2)
  read reg s :=
    match reg with
    | .TWCR => (if s.1 then _BV TWINT ||| _BV TWEN else _BV TWEN, (true, s.2))
    | .TWSR => (s.2.headD 0xF8, (s.1, s.2.tail))
    | _ => (0, s)

namespace TwiMaster

variable {η : Type}

/-- Source: `bool TwiMaster::repeatStart(uint8_t device, twiDir_t read)`, whose body is
`return start (device, read);`. -/
def repeatStart (H : TwiPeripheral η) (fuel : Nat) (device : Nat) (read : twiDir_t) (h : η) :
    Option (Bool × η) :=
  start H fuel device read h

/-- The wait loop of `TwiMaster::stop`: `while (TWCR & _BV(TWSTO)) continue;`, with a bound
on the number of polls; `none` when the bit was not seen clear within the bound. -/
def stopWait (H : TwiPeripheral η) : Nat → η → Option η
  | 0, _ => none
  | fuel + 1, h =>
    let r := H.read .TWCR h
    if r.1 &&& _BV TWSTO ≠ 0 then stopWait H fuel r.2 else some r.2

/-- Source: `void TwiMaster::stop()`: `TWCR = _BV(TWINT) | _BV(TWEN) | _BV(TWSTO);` and
then the wait loop. -/
def stop (H : TwiPeripheral η) (fuel : Nat) (h : η) : Option η :=
  stopWait H fuel (H.write .TWCR (_BV TWINT ||| _BV TWEN ||| _BV TWSTO) h)

/-- Source: `void TwiMaster::setSpeed (const bool fast)`, the value assigned to `TWBR`:
`((F_CPU / 400000) - 16) / 2` when `fast`, `((F_CPU / 100000) - 16) / 2` otherwise.
`F_CPU` is a build-time macro that the repository does not define, so it is a parameter;
the arithmetic is that of C `long` (division truncates toward zero), and the result is
the mathematical value before it is stored in the 8-bit register. -/
def setSpeedValue (F_CPU : Int) (fast : Bool) : Int :=
  ((F_CPU.tdiv (if fast then 400000 else 100000)) - 16).tdiv 2

/-- Content of the 8-bit register `TWBR` after `setSpeed`: the value reduced modulo 256. -/
def setSpeed (F_CPU : Int) (fast : Bool) : Int := setSpeedValue F_CPU fast % 256

/-- The scenario `start(d, dir); stop(); stop(); start(d, dir)`; the result carries what
the two `start` calls returned. -/
def startStopStopStart (H : TwiPeripheral η) (fuel : Nat) (device : Nat) (read : twiDir_t)
    (h : η) : Option (Bool × Bool × η) :=
  match start H fuel device read h with
  | none => none
  | some r1 =>
    match stop H fuel r1.2 with
    | none => none
    | some h2 =>
      match stop H fuel h2 with
      | none => none
      | some h3 =>
        match start H fuel device read h3 with
        | none => none
        | some r2 => some (r1.1, r2.1, r2.2)

end TwiMaster

/-! ## A simulated TWI peripheral with a device that acknowledges everything -/

/-- What the simulated peripheral is busy with. -/
inductive BusJob where
  | idle
  | startCondition
  | transfer
  | stopCondition
  deriving DecidableEq, Repr

/-- State of the simulated peripheral. `latency` is the number of polls of `TWCR` during
which a requested action is still in progress; `countdown` is 0 when nothing is in
progress. `owned` tells whether this master holds the bus. -/
structure BusSim where
  latency : Nat
  countdown : Nat
  job : BusJob
  owned : Bool
  twint : Bool
  twsr : Nat
  twdr : Nat
  deriving DecidableEq, Repr

/-- The simulated peripheral finishes the action in progress. A start condition sets
`TWINT` and reports `TW_START`, or `TW_REP_START` when the bus was already held. A
transfer after a start condition is the address byte, which the device acknowledges
(`TW_MR_SLA_ACK` for an odd byte, `TW_MT_SLA_ACK` for an even one); any other transfer is
reported as `TW_MT_DATA_ACK`. A stop condition releases the bus and leaves `TWINT`
clear. -/
def BusSim.complete (s : BusSim) : BusSim :=
  match s.job with
  | .idle => { s with countdown := 0 }
  | .startCondition =>
    { s with countdown := 0, job := .idle, twint := true, owned := true,
             twsr := if s.owned then TW_REP_START else TW_START }
  | .transfer =>
    { s with countdown := 0, job := .idle, twint := true,
             twsr := if s.twsr = TW_START ∨ s.twsr = TW_REP_START then
                 (if s.twdr % 2 = 1 then TW_MR_SLA_ACK else TW_MT_SLA_ACK)
               else TW_MT_DATA_ACK }
  | .stopCondition =>
    { s with countdown := 0, job := .idle, twint := false, owned := false, twsr := 0xF8 }

/-- The value a read of `TWCR` shows: `TWINT`, `TWSTO` while a stop is in progress, and
`TWEN`. -/
def BusSim.flags (s : BusSim) : Nat :=
  (if s.twint then _BV TWINT else 0) ||| (if s.job = .stopCondition then _BV TWSTO else 0) |||
    _BV TWEN

/-- The simulated peripheral. Writing `TWCR` with `TWSTO` requests a stop condition, with
`TWINT` and `TWSTA` a start condition, with `TWINT` alone a transfer; the write clears
`TWINT`. Every read of `TWCR` lets the action in progress advance by one step. -/
def busSim : TwiPeripheral BusSim where
  write reg v s :=
    match reg with
    | .TWCR =>
      if v &&& _BV TWSTO ≠ 0 then
        { s with job := .stopCondition, countdown := s.latency + 1, twint := false }
      else if v &&& _BV TWINT ≠ 0 ∧ v &&& _BV TWSTA ≠ 0 then
        { s with job := .startCondition, countdown := s.latency + 1, twint := false }
      else if v &&& _BV TWINT ≠ 0 then
        { s with job := .transfer, countdown := s.latency + 1, twint := false }
      else s
    | .TWDR => { s with twdr := v }
    | _ => s
  read reg s :=
    match reg with
    | .TWCR =>
      match s.countdown with
      | 0 => (s.flags, s)
      | k + 1 => if k = 0 then (s.complete.flags, s.complete)
                 else (s.flags, { s with countdown := k })
    | .TWSR => (s.twsr, s)
    | .TWDR => (s.twdr, s)
    | .TWBR => (0, s)

/-- The simulated peripheral after reset: bus idle, nothing in progress. -/
def busIdle (latency : Nat) : BusSim :=
  { latency := latency, countdown := 0, job := .idle, owned := false, twint := false,
    twsr := 0xF8, twdr := 0xFF }

/-! ## Logging every register access -/

/-- One access of the CPU to a register of the peripheral, with the value written or
the value read. -/
inductive RegEvent where
  | write (reg : Reg) (v : Nat)
  | read (reg : Reg) (v : Nat)
  deriving DecidableEq, Repr

/-- The peripheral `H`, made to append every register write and every register read to
a log. -/
def loggedRW {η : Type} (H : TwiPeripheral η) : TwiPeripheral (η × List RegEvent) where
  write reg v s := (H.write reg v s.1, s.2 ++ [RegEvent.write reg v])
  read reg s := ((H.read reg s.1).1, (H.read reg s.1).2,
    s.2 ++ [RegEvent.read reg (H.read reg s.1).1])

/-- The values read from the status register `TWSR`, in order. -/
def statusReads : List RegEvent → List Nat
  | [] => []
  | .read .TWSR v :: t => v :: statusReads t
  | _ :: t => statusReads t

/-- The values written to the data register `TWDR`, in order. -/
def dataWrites : List RegEvent → List Nat
  | [] => []
  | .write .TWDR v :: t => v :: dataWrites t
  | _ :: t => dataWrites t

/-- The first test of `TwiMaster::start` passes: the masked status is `TW_START` or
`TW_REP_START`. -/
def startConfirmed (twsr : Nat) : Bool :=
  decide (twsr &&& TW_STATUS_MASK = TW_START ∨ twsr &&& TW_STATUS_MASK = TW_REP_START)

/-- The second test of `TwiMaster::start` passes: the masked status is `TW_MT_SLA_ACK`
or `TW_MR_SLA_ACK`. -/
def addressAcked (twsr : Nat) : Bool :=
  decide (twsr &&& TW_STATUS_MASK = TW_MT_SLA_ACK ∨ twsr &&& TW_STATUS_MASK = TW_MR_SLA_ACK)

end AvrTwi

/-! # The register wrappers outside the TWI engine

`src/analoginput.h`, `src/timer8.h`, `src/uart.h` and `src/src/pinchangeints.h`. A special
function register is the 8-bit number it holds; a method that modifies a register maps
the old content to the new one. Bit numbers come from the avr-libc device headers. -/

namespace AvrCore

open AvrTwi (_BV)

/-- The low 16 bits of the C expression `~x`, for `x` below 65536 (an `int` has 16 bits
on AVR). -/
def cNot (x : Nat) : Nat := 0xFFFF ^^^ x

/-- The statement `reg &= v;` on an 8-bit register: the new content. -/
def andAssign8 (reg v : Nat) : Nat := (reg &&& v) % 256

/-- The statement `reg |= v;` on an 8-bit register: the new content. -/
def orAssign8 (reg v : Nat) : Nat := (reg ||| v) % 256

/-! ## `analoginput.h` -/

namespace AnalogInput

/-- The member initialiser `div(1023 / (sectors-1))` of the constructor
`AnalogInput (uint8_t sectors)`; `div` is a `const uint16_t`. The division is undefined
for `sectors = 1`. -/
def div (sectors : Nat) : Option Nat :=
  if sectors = 1 then none
  else some (((1023 : Int).tdiv ((sectors : Int) - 1) % 65536).toNat)

/-- Source: `uint8_t readSector() { return read() / this->div; }`, where `adc` is the
conversion result that `read()` returns (a 10-bit number). The division is undefined for
`div = 0`. -/
def readSector (div adc : Nat) : Option Nat :=
  if div = 0 then none else some ((adc / div) % 256)

end AnalogInput

/-! ## `timer8.h` -/

/-- The enumeration `wavegenMode8_t` of `timerpriv.h`. -/
inductive wavegenMode8_t where
  | Wgen8Normal
  | Wgen8PwmPhase8
  | Wgen8CtcO
  | Wgen8FastPwm8
  | Wgen8Reserved1
  | Wgen8PwmPhaseO
  | Wgen8Reserved2
  | Wgen8FastPwmO
  deriving DecidableEq, Repr

/-- The integer value of a `wavegenMode8_t` enumerator, 0 to 7 in the order of
declaration. -/
def wavegenMode8_t.toNat : wavegenMode8_t → Nat
  | .Wgen8Normal => 0
  | .Wgen8PwmPhase8 => 1
  | .Wgen8CtcO => 2
  | .Wgen8FastPwm8 => 3
  | .Wgen8Reserved1 => 4
  | .Wgen8PwmPhaseO => 5
  | .Wgen8Reserved2 => 6
  | .Wgen8FastPwmO => 7

/-- Bit number `WGM00` of `TCCRnA` (avr-libc). -/
def WGM00 : Nat := 0
/-- Bit number `WGM02` of `TCCRnB` (avr-libc). -/
def WGM02 : Nat := 3

/-- The registers of one 8-bit timer: the content of the register behind each member of
the structure that `_defTimer8` declares. They are seven distinct registers. -/
structure Timer8Regs where
  tccraRegx : Nat
  tccrbRegx : Nat
  tcntRegx : Nat
  ocraRegx : Nat
  ocrbRegx : Nat
  timskRegx : Nat
  tifrRegx : Nat
  deriving DecidableEq, Repr

namespace Timer8

/-- Source: `void setWavegenMode (wavegenMode8_t mode)`:
`tccra &= ~0x03; tccra |= (mode & 0x03); tccrb &= ~(1 << WGM02);
 tccrb |= ((mode & 0x0c) << (WGM02 - WGM00));` -/
def setWavegenMode (mode : wavegenMode8_t) (t : Timer8Regs) : Timer8Regs :=
  { t with
    tccraRegx := orAssign8 (andAssign8 t.tccraRegx (cNot 0x03)) (mode.toNat &&& 0x03)
    tccrbRegx := orAssign8 (andAssign8 t.tccrbRegx (cNot (1 <<< WGM02)))
      ((mode.toNat &&& 0x0c) <<< (WGM02 - WGM00)) }

/-- Source: `void writeCompareA (uint8_t value) { *psfr8_t(TTIMER8::ocraRegx) = value; }` -/
def writeCompareA (value : Nat) (t : Timer8Regs) : Timer8Regs := { t with ocraRegx := value }

/-- Source: `uint8_t readCompareA () { return *psfr8_t(TTIMER8::ocraRegx); }` -/
def readCompareA (t : Timer8Regs) : Nat := t.ocraRegx

/-- Source: `void writeCompareB (uint8_t value) { *psfr8_t(TTIMER8::ocrbRegx) = value; }` -/
def writeCompareB (value : Nat) (t : Timer8Regs) : Timer8Regs := { t with ocrbRegx := value }

/-- Source: `uint8_t readCompareB () { return *psfr8_t(TTIMER8::tccrbRegx); }` -/
def readCompareB (t : Timer8Regs) : Nat := t.tccrbRegx

end Timer8

/-! ## `uart.h` -/

/-- The enumeration `uart_parity_t` of `uart.h`. -/
inductive uart_parity_t where
  | parityNone
  | parityReserved
  | parityEven
  | parityOdd
  deriving DecidableEq, Repr

/-- The integer value of a `uart_parity_t` enumerator, 0 to 3 in the order of
declaration. -/
def uart_parity_t.toNat : uart_parity_t → Nat
  | .parityNone => 0
  | .parityReserved => 1
  | .parityEven => 2
  | .parityOdd => 3

/-- Bit number `UPM00` of `UCSRnC` (avr-libc). -/
def UPM00 : Nat := 4

namespace Uart

/-- Source: `void setParity (enum uart_parity_t parity)`:
`crsc &= ~(parityOdd<<UPM00); crsc |= parity;`, as a map on the content of `UCSRnC`. -/
def setParity (parity : uart_parity_t) (crscx : Nat) : Nat :=
  orAssign8 (andAssign8 crscx (cNot (uart_parity_t.parityOdd.toNat <<< UPM00))) parity.toNat

/-- The two-bit parity field `UPMn1:UPMn0` of a `UCSRnC` content. -/
def parityField (crscx : Nat) : Nat := (crscx >>> UPM00) &&& 3

end Uart

/-! ## `pinchangeints.h` -/

namespace PinChangeInt

/-- Source: `bool getIntFlag () { return PCIFR & _BV(1<<pcint::bitx); }`; `bitx` is the
member of the structure that `_defPCInt` declares. -/
def getIntFlag (pcifr bitx : Nat) : Bool := decide (pcifr &&& _BV (1 <<< bitx) ≠ 0)

/-- Source: `void clearIntFlag() { _sbi (PCIFR, pcint::bitx); }`, that is
`PCIFR |= _BV(bitx)`: the value written to `PCIFR`. -/
def clearIntFlag (pcifr bitx : Nat) : Nat := orAssign8 pcifr (_BV bitx)

end PinChangeInt

/-! ## `fastioport.h` -/

namespace FastIOOutputPort

/-- The member `static const uint8_t mask = ((uint8_t(1) << numBits) - 1) << startBit;` -/
def mask (startBit numBits : Nat) : Nat := (((1 <<< numBits) - 1) <<< startBit) % 256

/-- Source: `void write(uint8_t value)` of the primary template
`FastIOOutputPort<port, startBit, numBits>`:
`uint8_t v = PORT; uint8_t shifted = value << startBit; v |= shifted & mask;
 v &= (shifted | ~mask); PORT = v;`, as a map on the content of `PORT`. -/
def writeField (startBit numBits value portx : Nat) : Nat :=
  let shifted := (value <<< startBit) % 256
  let v1 := orAssign8 portx (shifted &&& mask startBit numBits)
  andAssign8 v1 (shifted ||| cNot (mask startBit numBits))

/-- Source: `void write(uint8_t value)` of the specialisation `FastIOOutputPort<port, 0, 8>`:
`PORT = value;`. -/
def writeAll (value : Nat) (_portx : Nat) : Nat := value

/-- The method `write` of `FastIOOutputPort<port, startBit, numBits>`: the template
arguments `0, 8` select the specialisation, all others the primary template. -/
def write (startBit numBits value portx : Nat) : Nat :=
  if startBit = 0 ∧ numBits = 8 then writeAll value portx
  else writeField startBit numBits value portx

end FastIOOutputPort

/-! ## `extinterrupts.h` -/

/-- The enumeration `extIntSense_t` of `extinterrupts.h`. -/
inductive extIntSense_t where
  | ExtIntLowLevel
  | ExtIntAnyEdge
  | ExtIntFalling
  | ExtIntRising
  deriving DecidableEq, Repr

/-- The integer value of an `extIntSense_t` enumerator, 0 to 3 in the order of
declaration. -/
def extIntSense_t.toNat : extIntSense_t → Nat
  | .ExtIntLowLevel => 0
  | .ExtIntAnyEdge => 1
  | .ExtIntFalling => 2
  | .ExtIntRising => 3

namespace ExtInterrupt

/-- Source: `void setSense(extIntSense_t sense)`:
`ctl &= ~(3<<TEXTINT::bit1x); ctl |= sense<<TEXTINT::bit1x;`, as a map on the content of
the control register. -/
def setSense (bit1x : Nat) (sense : extIntSense_t) (ctlregx : Nat) : Nat :=
  orAssign8 (andAssign8 ctlregx (cNot (3 <<< bit1x))) (sense.toNat <<< bit1x)

/-- Source: `extIntSense_t getSense()`: the value
`(ctl >> TEXTINT::bit1x) & 0x03` that is cast to `extIntSense_t`. -/
def getSense (bit1x : Nat) (ctlregx : Nat) : Nat := (ctlregx >>> bit1x) &&& 0x03

end ExtInterrupt

/-! ## `spiMaster.h`, `spiMasterSpi.h` -/

/-- The enumeration `spiModes_t` of `spiMaster.h`. -/
inductive spiModes_t where
  | SPI_MODE0
  | SPI_MODE1
  | SPI_MODE2
  | SPI_MODE3
  deriving DecidableEq, Repr

/-- The integer value of a `spiModes_t` enumerator: `SPI_MODE0 = 0` to `SPI_MODE3 = 3`. -/
def spiModes_t.toNat : spiModes_t → Nat
  | .SPI_MODE0 => 0
  | .SPI_MODE1 => 1
  | .SPI_MODE2 => 2
  | .SPI_MODE3 => 3

/-- Bit number `CPHA` of `SPCR` (avr-libc). -/
def CPHA : Nat := 2
/-- Bit number `CPOL` of `SPCR` (avr-libc). -/
def CPOL : Nat := 3

/-- The table `static const uint8_t modeVals[]` of `spiMasterSpi.h`, indexed by the
mode: `0x00`, `_BV(CPHA)`, `_BV(CPOL)`, `_BV(CPOL) | _BV(CPHA)`. -/
def modeVals : spiModes_t → Nat
  | .SPI_MODE0 => 0x00
  | .SPI_MODE1 => _BV CPHA
  | .SPI_MODE2 => _BV CPOL
  | .SPI_MODE3 => _BV CPOL ||| _BV CPHA

namespace SpiMaster

/-- Source: `spiModes_t getMode ()`: the value `(SPCR & (CPHA | CPOL)) >> CPHA` that is
cast to `spiModes_t`. -/
def getMode (spcr : Nat) : Nat := (spcr &&& (CPHA ||| CPOL)) >>> CPHA

/-- Source: `spiModes_t setMode (spiModes_t mode)`:
`savedMode = getMode(); SPCR &= ~(_BV(CPOL) | _BV(CPHA)); SPCR |= modeVals[mode];
 return savedMode;`. The result is the value returned and the new content of `SPCR`. -/
def setMode (mode : spiModes_t) (spcr : Nat) : Nat × Nat :=
  (getMode spcr, orAssign8 (andAssign8 spcr (cNot (_BV CPOL ||| _BV CPHA))) (modeVals mode))

end SpiMaster

end AvrCore

/-! # Theorems -/

namespace AvrTwi

open TwiMasterBase

variable {σ η : Type}

/-! ## The hardware `start` -/

theorem traced_start (B : TwiMasterBase σ) (device : Nat) (read : twiDir_t)
    (s : σ × List Call) :
    (traced B).start device read s =
      ((B.start device read s.1).1, (B.start device read s.1).2,
        s.2 ++ [Call.start device read (B.start device read s.1).1]) := rfl

theorem traced_repeatStart (B : TwiMasterBase σ) (device : Nat) (read : twiDir_t)
    (s : σ × List Call) :
    (traced B).repeatStart device read s =
      ((B.repeatStart device read s.1).1, (B.repeatStart device read s.1).2,
        s.2 ++ [Call.repeatStart device read (B.repeatStart device read s.1).1]) := rfl

theorem traced_stop (B : TwiMasterBase σ) (s : σ × List Call) :
    (traced B).stop s = (B.stop s.1, s.2 ++ [Call.stop]) := rfl

theorem traced_writeDevice (B : TwiMasterBase σ) (data : Nat) (s : σ × List Call) :
    (traced B).writeDevice data s =
      ((B.writeDevice data s.1).1, (B.writeDevice data s.1).2,
        s.2 ++ [Call.writeDevice data (B.writeDevice data s.1).1]) := rfl

theorem traced_readDeviceWithAck (B : TwiMasterBase σ) (s : σ × List Call) :
    (traced B).readDeviceWithAck s =
      ((B.readDeviceWithAck s.1).1, (B.readDeviceWithAck s.1).2,
        s.2 ++ [Call.readDeviceWithAck (B.readDeviceWithAck s.1).1]) := rfl

theorem traced_readDeviceWithNak (B : TwiMasterBase σ) (s : σ × List Call) :
    (traced B).readDeviceWithNak s =
      ((B.readDeviceWithNak s.1).1, (B.readDeviceWithNak s.1).2,
        s.2 ++ [Call.readDeviceWithNak (B.readDeviceWithNak s.1).1]) := rfl

/-! ## Operations without a loop -/

/-- Claim C2 (fail-closed on address NAK). For each of the six composite operations, every
backend and all arguments: if the initial `start` call returns false, the operation
returns false, leaves the caller's buffer as it was, and its whole call trace is that one
`start` call (`start(device, Write)`; `start(device, Read)` for `readBytes`). -/
theorem start_nak_no_further_call (B : TwiMasterBase σ) (s : σ)
    (device address byte cell count : Nat) (data : Nat → Nat) (sendStop : Bool) :
    ((B.start device .TwiDirWrite s).1 = false →
      writeBytes (traced B) device data count sendStop (s, []) =
          some (false, (B.start device .TwiDirWrite s).2,
            [Call.start device .TwiDirWrite false]) ∧
        writeRegister (traced B) device address byte (s, []) =
          (false, (B.start device .TwiDirWrite s).2, [Call.start device .TwiDirWrite false]) ∧
        writeRegisterMulti (traced B) device address data count (s, []) =
          some (false, (B.start device .TwiDirWrite s).2,
            [Call.start device .TwiDirWrite false]) ∧
        readRegister (traced B) device address cell (s, []) =
          (false, cell, (B.start device .TwiDirWrite s).2,
            [Call.start device .TwiDirWrite false]) ∧
        readRegisterMulti (traced B) device address data count (s, []) =
          some (false, data, (B.start device .TwiDirWrite s).2,
            [Call.start device .TwiDirWrite false])) ∧
    ((B.start device .TwiDirRead s).1 = false →
      readBytes (traced B) device data count sendStop (s, []) =
        some (false, data, (B.start device .TwiDirRead s).2,
          [Call.start device .TwiDirRead false])) := by
  constructor
  · intro h
    simp [writeBytes, writeRegister, writeRegisterMulti, readRegister, readRegisterMulti,
      traced_start, h]
  · intro h
    simp [readBytes, traced_start, h]

/-- Witness for C2: `readRegister(0x50, 0x10)` against a device that does not
acknowledge its address returns false with the trace `[start(0x50, Write)]`. -/
theorem start_nak_no_further_call_witness :
    readRegister (traced (simBackend nakAddr)) 0x50 0x10 0 (⟨0, 0⟩, []) =
      (false, 0, ⟨0, 0⟩, [Call.start 0x50 .TwiDirWrite false]) :=
  ((start_nak_no_further_call (simBackend nakAddr) ⟨0, 0⟩ 0x50 0x10 0 0 1 (fun _ => 0)
    true).1 rfl).2.2.2.1

/-- Claim C3 (write-then-read idiom). For every backend, device and register address,
the call trace of the single-byte `readRegister` is `start(device, Write)`,
`writeDevice(addr)`, `repeatStart(device, Read)`, `readDeviceWithNak()`, `stop()` cut
after the first of the three acknowledge-checked steps that returns false; when all three
succeed the read and the stop are both issued. -/
theorem readRegister_call_order (B : TwiMasterBase σ) (s : σ) (device address cell : Nat) :
    let r1 := B.start device .TwiDirWrite s
    let r2 := B.writeDevice address r1.2
    let r3 := B.repeatStart device .TwiDirRead r2.2
    let r4 := B.readDeviceWithNak r3.2
    (readRegister (traced B) device address cell (s, [])).2.2.2 =
      if r1.1 = false then [Call.start device .TwiDirWrite false]
      else if r2.1 = false then
        [Call.start device .TwiDirWrite true, Call.writeDevice address false]
      else if r3.1 = false then
        [Call.start device .TwiDirWrite true, Call.writeDevice address true,
          Call.repeatStart device .TwiDirRead false]
      else
        [Call.start device .TwiDirWrite true, Call.writeDevice address true,
          Call.repeatStart device .TwiDirRead true, Call.readDeviceWithNak r4.1,
          Call.stop] := by
  intro r1 r2 r3 r4
  simp only [readRegister, traced_start, traced_writeDevice, traced_repeatStart,
    traced_readDeviceWithNak, traced_stop]
  by_cases h1 : r1.1 = false
  · have h1' : (B.start device twiDir_t.TwiDirWrite s).1 = false := h1
    simp [h1, h1']
  · have h1' : (B.start device twiDir_t.TwiDirWrite s).1 = true := by simpa using h1
    by_cases h2 : r2.1 = false
    · have h2' : (B.writeDevice address (B.start device twiDir_t.TwiDirWrite s).2).1 = false := h2
      simp [h1, h1', h2, h2']
    · have h2' : (B.writeDevice address (B.start device twiDir_t.TwiDirWrite s).2).1 = true := by
        simpa using h2
      by_cases h3 : r3.1 = false
      · have h3' : (B.repeatStart device twiDir_t.TwiDirRead
            (B.writeDevice address (B.start device twiDir_t.TwiDirWrite s).2).2).1 = false := h3
        simp [h1, h1', h2, h2', h3, h3']
      · have h3' : (B.repeatStart device twiDir_t.TwiDirRead
            (B.writeDevice address (B.start device twiDir_t.TwiDirWrite s).2).2).1 = true := by
          simpa using h3
        simp [h1, h1', h2, h2', h3, h3', r4, r3, r2, r1]

/-- Claim C7 (single-byte `writeRegister`). For every backend and all arguments,
`writeRegister(device, regAddr, data)` returns true if and only if `start(device, Write)`,
`writeDevice(regAddr)` and `writeDevice(data)` are all acknowledged, and then its call
trace is exactly `start`, `writeDevice(regAddr)`, `writeDevice(data)`, `stop`. -/
theorem writeRegister_true_iff (B : TwiMasterBase σ) (s : σ) (device address data : Nat) :
    let r1 := B.start device .TwiDirWrite s
    let r2 := B.writeDevice address r1.2
    let r3 := B.writeDevice data r2.2
    ((writeRegister (traced B) device address data (s, [])).1 = true ↔
        r1.1 = true ∧ r2.1 = true ∧ r3.1 = true) ∧
      ((writeRegister (traced B) device address data (s, [])).1 = true →
        (writeRegister (traced B) device address data (s, [])).2.2 =
          [Call.start device .TwiDirWrite true, Call.writeDevice address true,
            Call.writeDevice data true, Call.stop]) ∧
      (writeRegister B device address data s).1 =
        (writeRegister (traced B) device address data (s, [])).1 := by
  intro r1 r2 r3
  simp only [writeRegister, traced_start, traced_writeDevice, traced_stop]
  cases h1 : (B.start device twiDir_t.TwiDirWrite s).1 <;>
  cases h2 : (B.writeDevice address (B.start device twiDir_t.TwiDirWrite s).2).1 <;>
  cases h3 : (B.writeDevice data
      (B.writeDevice address (B.start device twiDir_t.TwiDirWrite s).2).2).1 <;>
  simp [r1, r2, r3, h1, h2, h3]

/-- Witness for C7: `writeRegister(0x50, 0x10, 0xAB)` against a device that
acknowledges everything returns true with the trace
`start(0x50, Write), writeDevice(0x10), writeDevice(0xAB), stop`. -/
theorem writeRegister_true_iff_witness :
    (writeRegister (traced (simBackend ackAll)) 0x50 0x10 0xAB (⟨0, 0⟩, [])).1 = true ∧
      (writeRegister (traced (simBackend ackAll)) 0x50 0x10 0xAB (⟨0, 0⟩, [])).2.2 =
        [Call.start 0x50 .TwiDirWrite true, Call.writeDevice 0x10 true,
          Call.writeDevice 0xAB true, Call.stop] :=
  ⟨(writeRegister_true_iff (simBackend ackAll) ⟨0, 0⟩ 0x50 0x10 0xAB).1.2 ⟨rfl, rfl, rfl⟩,
    (writeRegister_true_iff (simBackend ackAll) ⟨0, 0⟩ 0x50 0x10 0xAB).2.1 (by decide)⟩

/-! ## The 8-bit counters -/

theorem decr8_eq (count : Nat) (h : count < 256) :
    decr8 count = if count = 0 then 255 else count - 1 := by
  unfold decr8
  split <;> omega

theorem decr8_lt (count : Nat) : decr8 count < 256 := by
  unfold decr8
  omega

theorem iters_pos (count : Nat) : 1 ≤ iters count := by
  unfold iters
  split <;> omega

theorem iters_decr8 (count : Nat) (h : count < 256) (h1 : count ≠ 1) :
    decr8 count ≠ 0 ∧ iters (decr8 count) + 1 = iters count := by
  rw [decr8_eq count h]
  unfold iters
  by_cases h0 : count = 0
  · subst h0
    simp
  · have h2 : ¬ (count - 1 = 0) := by omega
    simp only [if_neg h0, if_neg h2]
    omega

/-! ## The read loop -/

/-- The read loop on a traced backend: it performs `iters count` reads, all but the last
with `readDeviceWithAck` and the last with `readDeviceWithNak`, stores the `j`-th byte at
index `i + j`, touches no other index, and agrees with the loop on the plain backend. -/
theorem readLoop_traced (B : TwiMasterBase σ) :
    ∀ (fuel count i : Nat) (data : Nat → Nat) (s : σ) (log : List Call),
      count < 256 → iters count ≤ fuel →
      ∃ (bytes : List Nat) (data1 : Nat → Nat) (s1 : σ),
        bytes.length = iters count ∧
        readLoop (traced B) fuel count i data (s, log) =
          some (data1, s1, log ++
            ((bytes.take (iters count - 1)).map Call.readDeviceWithAck ++
              (bytes.drop (iters count - 1)).map Call.readDeviceWithNak)) ∧
        readLoop B fuel count i data s = some (data1, s1) ∧
        (∀ j, j < iters count → bytes[j]? = some (data1 (i + j))) ∧
        (∀ k, k < i ∨ i + iters count ≤ k → data1 k = data k) := by
  intro fuel
  induction fuel with
  | zero =>
    intro count i data s log _ hf
    have := iters_pos count
    omega
  | succ n ih =>
    intro count i data s log hc hf
    by_cases h1 : count = 1
    · subst h1
      refine ⟨[(B.readDeviceWithNak s).1], Function.update data i (B.readDeviceWithNak s).1,
        (B.readDeviceWithNak s).2, ?_, ?_, ?_, ?_, ?_⟩
      · simp [iters]
      · simp [readLoop, decr8, iters, traced_readDeviceWithNak]
      · simp [readLoop, decr8]
      · intro j hj
        simp only [iters] at hj
        have hj0 : j = 0 := by simp at hj; omega
        subst hj0
        simp
      · intro k hk
        simp only [iters] at hk
        have hki : k ≠ i := by simp at hk; omega
        simp [Function.update, hki]
    · obtain ⟨hne, hit⟩ := iters_decr8 count hc h1
      obtain ⟨m, hm⟩ : ∃ m, iters (decr8 count) = m + 1 :=
        ⟨iters (decr8 count) - 1, by have := iters_pos (decr8 count); omega⟩
      have hcount : iters count = m + 2 := by omega
      obtain ⟨bytes, data1, s1, hlen, hrun, hrun0, hmem, hframe⟩ :=
        ih (decr8 count) (i + 1) (Function.update data i (B.readDeviceWithAck s).1)
          (B.readDeviceWithAck s).2 (log ++ [Call.readDeviceWithAck (B.readDeviceWithAck s).1])
          (decr8_lt count) (by omega)
      refine ⟨(B.readDeviceWithAck s).1 :: bytes, data1, s1, ?_, ?_, ?_, ?_, ?_⟩
      · simp [hlen, hcount, hm]
      · simp only [readLoop, if_neg h1, traced_readDeviceWithAck, if_pos hne]
        rw [hrun, hcount, hm]
        simp
      · simp only [readLoop, if_neg h1, if_pos hne]
        exact hrun0
      · intro j hj
        cases j with
        | zero =>
          have := hframe i (Or.inl (by omega))
          simp [this]
        | succ j =>
          have := hmem j (by omega)
          simp only [List.getElem?_cons_succ, this]
          congr 2
          omega
      · intro k hk
        have := hframe k (by omega)
        rw [this]
        have hki : k ≠ i := by omega
        simp [Function.update, hki]

/-- Claim C4 (read termination convention). For every `readBytes(device, data, count)`
with `1 ≤ count ≤ 255` whose `start` succeeds, on every backend: the operation returns
true; after `start(device, Read)` it issues `count - 1` calls of `readDeviceWithAck`
followed by one `readDeviceWithNak` (then `stop` when `sendStop`); the `i`-th byte the
backend returned is stored in `data[i]` for `i < count`; the buffer is untouched from
index `count` on. -/
theorem readBytes_ack_then_nak (B : TwiMasterBase σ) (s : σ) (device : Nat)
    (data : Nat → Nat) (count : Nat) (sendStop : Bool)
    (h1 : 1 ≤ count) (h255 : count ≤ 255)
    (hstart : (B.start device .TwiDirRead s).1 = true) :
    ∃ (bytes : List Nat) (data1 : Nat → Nat) (s1 : σ),
      bytes.length = count ∧
      ((bytes.take (count - 1)).length = count - 1 ∧ (bytes.drop (count - 1)).length = 1) ∧
      readBytes (traced B) device data count sendStop (s, []) =
        some (true, data1, s1,
          Call.start device .TwiDirRead true ::
            ((bytes.take (count - 1)).map Call.readDeviceWithAck ++
              (bytes.drop (count - 1)).map Call.readDeviceWithNak ++
              if sendStop then [Call.stop] else [])) ∧
      (∀ i, i < count → bytes[i]? = some (data1 i)) ∧
      (∀ k, count ≤ k → data1 k = data k) := by
  have hit : iters count = count := by
    unfold iters
    rw [if_neg (by omega)]
  obtain ⟨bytes, data1, s1, hlen, hrun, -, hmem, hframe⟩ :=
    readLoop_traced B 256 count 0 data (B.start device .TwiDirRead s).2
      [Call.start device .TwiDirRead true] (by omega) (by omega)
  rw [hit] at hlen hrun hmem hframe
  refine ⟨bytes, data1, if sendStop then B.stop s1 else s1, hlen, ?_, ?_, ?_, ?_⟩
  · simp only [List.length_take, List.length_drop, hlen]
    omega
  · simp only [readBytes, traced_start, hstart, if_true, List.nil_append, hrun]
    cases sendStop <;> simp [traced_stop]
  · intro i hi
    simpa using hmem i hi
  · intro k hk
    exact hframe k (Or.inr (by omega))

/-- Witness for C4: `readBytes(0x50, data, 3)` against a device that acknowledges
its address. -/
theorem readBytes_ack_then_nak_witness :
    ∃ (bytes : List Nat) (data1 : Nat → Nat) (s1 : SimState),
      bytes.length = 3 ∧
      ((bytes.take (3 - 1)).length = 3 - 1 ∧ (bytes.drop (3 - 1)).length = 1) ∧
      readBytes (traced (simBackend ackAll)) 0x50 (fun _ => 0) 3 true (⟨0, 0⟩, []) =
        some (true, data1, s1,
          Call.start 0x50 .TwiDirRead true ::
            ((bytes.take (3 - 1)).map Call.readDeviceWithAck ++
              (bytes.drop (3 - 1)).map Call.readDeviceWithNak ++
              if true = true then [Call.stop] else [])) ∧
      (∀ i, i < 3 → bytes[i]? = some (data1 i)) ∧
      (∀ k, 3 ≤ k → data1 k = (fun _ => 0) k) :=
  readBytes_ack_then_nak (simBackend ackAll) ⟨0, 0⟩ 0x50 (fun _ => 0) 3 true
    (by decide) (by decide) rfl

/-! ## The write loops -/

/-- The loop of `writeBytes` on a traced backend: it writes `data[i], data[i+1], ...` in
order; `m` bytes are acknowledged, then one more byte is written whose acknowledge bit
is `last`; the loop ends there, and if that byte was acknowledged it was the last of the
`iters count` bytes. -/
theorem writeBytesLoop_traced (B : TwiMasterBase σ) (data : Nat → Nat) :
    ∀ (fuel count i : Nat) (s : σ) (log : List Call),
      count < 256 → iters count ≤ fuel →
      ∃ (m : Nat) (last : Bool) (s1 : σ),
        m < iters count ∧ (last = true → m + 1 = iters count) ∧
        writeBytesLoop (traced B) data fuel count i (s, log) =
          some (s1, log ++
            ((List.range' i m).map (fun j => Call.writeDevice (data j) true) ++
              [Call.writeDevice (data (i + m)) last])) ∧
        writeBytesLoop B data fuel count i s = some s1 := by
  intro fuel
  induction fuel with
  | zero =>
    intro count i s log _ hf
    have := iters_pos count
    omega
  | succ n ih =>
    intro count i s log hc hf
    by_cases hack : (B.writeDevice (data i) s).1 = false
    · refine ⟨0, false, (B.writeDevice (data i) s).2, iters_pos count, by simp, ?_, ?_⟩
      · simp [writeBytesLoop, traced_writeDevice, hack]
      · simp [writeBytesLoop, hack]
    · have hack1 : (B.writeDevice (data i) s).1 = true := by simpa using hack
      by_cases h1 : count = 1
      · subst h1
        refine ⟨0, true, (B.writeDevice (data i) s).2, by simp [iters], by simp [iters], ?_, ?_⟩
        · simp [writeBytesLoop, traced_writeDevice, hack1, decr8]
        · simp [writeBytesLoop, hack1, decr8]
      · obtain ⟨hne, hit⟩ := iters_decr8 count hc h1
        obtain ⟨m, last, s1, hm, hlast, hrun, hrun0⟩ :=
          ih (decr8 count) (i + 1) (B.writeDevice (data i) s).2
            (log ++ [Call.writeDevice (data i) true]) (decr8_lt count) (by omega)
        refine ⟨m + 1, last, s1, by omega, fun h => by have := hlast h; omega, ?_, ?_⟩
        · simp only [writeBytesLoop, traced_writeDevice, hack1, if_pos hne]
          simp only [Bool.true_eq_false, if_false]
          rw [hrun]
          simp [List.range'_succ, Nat.add_assoc, Nat.add_comm 1 m]
        · simp only [writeBytesLoop, hack1, if_pos hne]
          simp only [Bool.true_eq_false, if_false]
          exact hrun0

theorem writeBytesLoop_succ (B : TwiMasterBase σ) (data : Nat → Nat)
    (fuel count i : Nat) (s : σ) :
    writeBytesLoop B data (fuel + 1) count i s =
      if (B.writeDevice (data i) s).1 = false then some (B.writeDevice (data i) s).2
      else if decr8 count ≠ 0 then
        writeBytesLoop B data fuel (decr8 count) (i + 1) (B.writeDevice (data i) s).2
      else some (B.writeDevice (data i) s).2 := rfl

/-- The loop of `writeBytes` returns for every `count` and every backend: 256 iterations
are never exceeded. -/
theorem writeBytesLoop_isSome (B : TwiMasterBase σ) (data : Nat → Nat) (count : Nat)
    (s : σ) : ∃ s1, writeBytesLoop B data 256 count 0 s = some s1 := by
  rw [show (256 : Nat) = 255 + 1 from rfl, writeBytesLoop_succ]
  by_cases hack : (B.writeDevice (data 0) s).1 = false
  · exact ⟨(B.writeDevice (data 0) s).2, by rw [if_pos hack]⟩
  · rw [if_neg hack]
    by_cases hne : decr8 count ≠ 0
    · have hlt := decr8_lt count
      have hit : iters (decr8 count) ≤ 255 := by
        unfold iters
        rw [if_neg hne]
        omega
      obtain ⟨_, _, s1, _, _, _, hrun0⟩ :=
        writeBytesLoop_traced B data 255 (decr8 count) 1 (B.writeDevice (data 0) s).2 []
          hlt hit
      refine ⟨s1, ?_⟩
      rw [if_pos hne]
      exact hrun0
    · exact ⟨(B.writeDevice (data 0) s).2, by rw [if_neg hne]⟩

/-- Claim C10 (`writeBytes` result). For every backend, data buffer, `count` and `sendStop`,
`writeBytes` returns, and its result is true if and only if its `start(device, Write)`
call succeeded; whatever the data bytes' acknowledge bits are, they do not enter the
result. -/
theorem writeBytes_result_is_start (B : TwiMasterBase σ) (s : σ) (device : Nat)
    (data : Nat → Nat) (count : Nat) (sendStop : Bool) :
    ∃ res : Bool × σ, writeBytes B device data count sendStop s = some res ∧
      (res.1 = true ↔ (B.start device .TwiDirWrite s).1 = true) := by
  cases hstart : (B.start device .TwiDirWrite s).1
  · exact ⟨(false, (B.start device .TwiDirWrite s).2), by simp [writeBytes, hstart], by simp⟩
  · obtain ⟨s1, hs1⟩ := writeBytesLoop_isSome B data count (B.start device .TwiDirWrite s).2
    exact ⟨(true, if sendStop then B.stop s1 else s1), by simp [writeBytes, hstart, hs1],
      by simp⟩

/-- Witness for C10: a device that acknowledges its address and the first byte but
not the second; `writeBytes` of three bytes stops after the second and returns true. -/
theorem writeBytes_result_is_start_witness :
    writeBytes (traced (simBackend nakData)) 0x50 (fun i => 10 + i) 3 true (⟨0, 0⟩, []) =
        some (true, ⟨2, 0⟩, [Call.start 0x50 .TwiDirWrite true, Call.writeDevice 10 true,
          Call.writeDevice 11 false, Call.stop]) ∧
      ∃ res : Bool × SimState × List Call,
        writeBytes (traced (simBackend nakData)) 0x50 (fun i => 10 + i) 3 true (⟨0, 0⟩, []) =
            some res ∧
          (res.1 = true ↔
            ((traced (simBackend nakData)).start 0x50 .TwiDirWrite (⟨0, 0⟩, [])).1 = true) :=
  ⟨by decide, writeBytes_result_is_start (traced (simBackend nakData)) (⟨0, 0⟩, []) 0x50
    (fun i => 10 + i) 3 true⟩

/-! ## `scanBus` -/

theorem scanBusLoop_traced (B : TwiMasterBase σ) (function : Nat → σ → σ) :
    ∀ (fuel device : Nat) (s : σ) (log : List Call),
      device ≤ 128 → 128 - device < fuel →
      ∃ (ack : Nat → Bool) (val : Nat → Nat) (s1 : σ),
        scanBusLoop (traced B) (tracedFn function) fuel device (s, log) =
          some (s1, log ++ (List.range' device (128 - device)).flatMap (scanBlock ack val)) ∧
        scanBusLoop B function fuel device s = some s1 := by
  intro fuel
  induction fuel with
  | zero => intro device s log _ hf; omega
  | succ n ih =>
    intro device s log hd hf
    by_cases hlt : device < 0x80
    · have hinc : incr8 device = device + 1 := by
        unfold incr8
        omega
      obtain ⟨k, hk⟩ : ∃ k, 128 - device = k + 1 := ⟨128 - device - 1, by omega⟩
      have hk1 : 128 - (device + 1) = k := by omega
      cases hrc : (B.start device .TwiDirRead s).1
      · obtain ⟨ack, val, s1, hrun, hrun0⟩ :=
          ih (device + 1) (B.start device .TwiDirRead s).2
            (log ++ [Call.start device .TwiDirRead false]) (by omega) (by omega)
        refine ⟨fun d => if d = device then false else ack d, val, s1, ?_, ?_⟩
        · simp only [scanBusLoop, if_pos hlt, traced_start, hrc, hinc]
          simp only [Bool.false_eq_true, if_false]
          rw [hrun, hk, hk1, List.range'_succ, List.flatMap_cons]
          have hcongr : (List.range' (device + 1) k).flatMap
              (scanBlock (fun d => if d = device then false else ack d) val) =
              (List.range' (device + 1) k).flatMap (scanBlock ack val) := by
            apply List.flatMap_congr
            intro d hmem
            have hne : d ≠ device := by
              have := List.mem_range'_1.mp hmem
              omega
            simp [scanBlock, hne]
          rw [hcongr]
          simp [scanBlock]
        · simp only [scanBusLoop, if_pos hlt, hrc, hinc]
          simpa using hrun0
      · obtain ⟨ack, val, s1, hrun, hrun0⟩ :=
          ih (device + 1)
            (function device (B.stop (B.readDeviceWithNak (B.start device .TwiDirRead s).2).2))
            (log ++ [Call.start device .TwiDirRead true,
              Call.readDeviceWithNak (B.readDeviceWithNak (B.start device .TwiDirRead s).2).1,
              Call.stop, Call.callback device]) (by omega) (by omega)
        refine ⟨fun d => if d = device then true else ack d,
          fun d => if d = device then
            (B.readDeviceWithNak (B.start device .TwiDirRead s).2).1 else val d, s1, ?_, ?_⟩
        · simp only [scanBusLoop, if_pos hlt, traced_start, traced_readDeviceWithNak,
            traced_stop, tracedFn, hrc, hinc, if_true]
          simp only [List.append_assoc, List.singleton_append, List.cons_append,
            List.nil_append] at hrun ⊢
          rw [hrun, hk, hk1, List.range'_succ, List.flatMap_cons]
          have hcongr : (List.range' (device + 1) k).flatMap
              (scanBlock (fun d => if d = device then true else ack d)
                (fun d => if d = device then
                  (B.readDeviceWithNak (B.start device .TwiDirRead s).2).1 else val d)) =
              (List.range' (device + 1) k).flatMap (scanBlock ack val) := by
            apply List.flatMap_congr
            intro d hmem
            have hne : d ≠ device := by
              have := List.mem_range'_1.mp hmem
              omega
            simp [scanBlock, hne]
          rw [hcongr]
          simp [scanBlock]
        · simp only [scanBusLoop, if_pos hlt, hrc, hinc, if_true]
          exact hrun0
    · have hdev : device = 128 := by omega
      subst hdev
      exact ⟨fun _ => false, fun _ => 0, s, by simp [scanBusLoop], by simp [scanBusLoop]⟩

theorem startCalls_append (l1 l2 : List Call) :
    startCalls (l1 ++ l2) = startCalls l1 ++ startCalls l2 := by
  induction l1 with
  | nil => rfl
  | cons c t ih => cases c <;> simp [startCalls, ih]

theorem startCalls_scanBlocks (ack : Nat → Bool) (val : Nat → Nat) (l : List Nat) :
    startCalls (l.flatMap (scanBlock ack val)) = l.map (fun d => (d, twiDir_t.TwiDirRead)) := by
  induction l with
  | nil => rfl
  | cons d t ih =>
    rw [List.flatMap_cons, startCalls_append, ih]
    cases h : ack d <;> simp [scanBlock, h, startCalls]

theorem callbacks_append (l1 l2 : List Call) :
    callbacks (l1 ++ l2) = callbacks l1 ++ callbacks l2 := by
  induction l1 with
  | nil => rfl
  | cons c t ih => cases c <;> simp [callbacks, ih]

theorem callbacks_scanBlocks (ack : Nat → Bool) (val : Nat → Nat) (l : List Nat) :
    callbacks (l.flatMap (scanBlock ack val)) = l.filter (fun d => ack d) := by
  induction l with
  | nil => rfl
  | cons d t ih =>
    rw [List.flatMap_cons, callbacks_append, ih]
    cases h : ack d <;> simp [scanBlock, h, callbacks]

/-- Claim C5, as the code has it (scan range). For every backend and callback, `scanBus`
returns, and the `start` calls it makes are `start(device, Read)` for `device` = 1, 2,
..., 127, once each and in this order: address 0 is never attempted, address 127 is. -/
theorem scanBus_addresses (B : TwiMasterBase σ) (function : Nat → σ → σ) (s : σ) :
    ∃ s1 : σ × List Call,
      scanBus (traced B) (tracedFn function) (s, []) = some s1 ∧
      startCalls s1.2 = (List.range' 1 127).map (fun d => (d, twiDir_t.TwiDirRead)) := by
  obtain ⟨ack, val, s1, hrun, -⟩ :=
    scanBusLoop_traced B function 128 1 s [] (by omega) (by omega)
  refine ⟨(s1, (List.range' 1 127).flatMap (scanBlock ack val)), ?_, ?_⟩
  · simpa [scanBus] using hrun
  · exact startCalls_scanBlocks ack val _

set_option maxRecDepth 100000 in
/-- Counterexample to C5 as stated: on a bus where no device answers, `scanBus` does
call `start(127, Read)`; the addresses attempted are not just 1 to 126. -/
theorem scanBus_attempts_127 :
    ∃ s1 : SimState × List Call,
      scanBus (traced (simBackend nakAddr)) (tracedFn (fun _ s => s)) (⟨0, 0⟩, []) = some s1 ∧
      (127, twiDir_t.TwiDirRead) ∈ startCalls s1.2 ∧
      (startCalls s1.2).length = 127 :=
  ⟨(⟨0, 0⟩, (List.range' 1 127).map (fun d => Call.start d .TwiDirRead false)),
    by decide, by decide, by decide⟩

/-- Claim C6 (`scanBus` discovery). For every backend and callback, the trace of `scanBus`
is, for each address 1, 2, ..., 127 in turn, either the lone unacknowledged
`start(device, Read)` or the acknowledged `start(device, Read)` followed by
`readDeviceWithNak()`, `stop()` and the callback with that address. Hence the callback
runs exactly once for each address that acknowledged and for no other, after the dummy
read and the stop for that address, in strictly increasing address order, and no read or
stop is issued for an address that did not acknowledge. -/
theorem scanBus_discovery (B : TwiMasterBase σ) (function : Nat → σ → σ) (s : σ) :
    ∃ (ack : Nat → Bool) (val : Nat → Nat) (s1 : σ × List Call),
      scanBus (traced B) (tracedFn function) (s, []) = some s1 ∧
      s1.2 = (List.range' 1 127).flatMap (scanBlock ack val) ∧
      callbacks s1.2 = (List.range' 1 127).filter (fun d => ack d) ∧
      (callbacks s1.2).Pairwise (fun a b => a < b) ∧
      scanBus B function s = some s1.1 := by
  obtain ⟨ack, val, s1, hrun, hrun0⟩ :=
    scanBusLoop_traced B function 128 1 s [] (by omega) (by omega)
  refine ⟨ack, val, (s1, (List.range' 1 127).flatMap (scanBlock ack val)), ?_, rfl, ?_, ?_,
    hrun0⟩
  · simpa [scanBus] using hrun
  · exact callbacks_scanBlocks ack val _
  · rw [callbacks_scanBlocks]
    exact (List.pairwise_lt_range' 1 127).filter _

/-! ## Traces of the operations with a loop -/

theorem writeRegisterLoop_traced (B : TwiMasterBase σ) (data : Nat → Nat) (count : Nat)
    (hcount : count ≤ 255) :
    ∀ (fuel i : Nat) (ret : Bool) (s : σ) (log : List Call),
      i ≤ count → count - i < fuel →
      ∃ (acks : List Bool) (s1 : σ),
        acks.length = count - i ∧
        writeRegisterLoop (traced B) data count fuel i ret (s, log) =
          some (ret && acks.all id, s1, log ++
            List.zipWith (fun j a => Call.writeDevice (data j) a)
              (List.range' i (count - i)) acks) ∧
        writeRegisterLoop B data count fuel i ret s = some (ret && acks.all id, s1) := by
  intro fuel
  induction fuel with
  | zero => intro i ret s log _ hf; omega
  | succ n ih =>
    intro i ret s log hi hf
    by_cases hlt : i < count
    · have hinc : incr8 i = i + 1 := by
        unfold incr8
        omega
      obtain ⟨k, hk⟩ : ∃ k, count - i = k + 1 := ⟨count - i - 1, by omega⟩
      have hk1 : count - (i + 1) = k := by omega
      obtain ⟨acks, s1, hlen, hrun, hrun0⟩ :=
        ih (i + 1) (if (B.writeDevice (data i) s).1 = false then false else ret)
          (B.writeDevice (data i) s).2
          (log ++ [Call.writeDevice (data i) (B.writeDevice (data i) s).1]) (by omega)
          (by omega)
      have hret : ((if (B.writeDevice (data i) s).1 = false then false else ret) &&
          acks.all id) = (ret && ((B.writeDevice (data i) s).1 :: acks).all id) := by
        cases (B.writeDevice (data i) s).1 <;> cases ret <;> simp
      refine ⟨(B.writeDevice (data i) s).1 :: acks, s1, by simp [hlen, hk, hk1], ?_, ?_⟩
      · simp only [writeRegisterLoop, if_pos hlt, traced_writeDevice, hinc]
        rw [hrun, hret, hk, hk1, List.range'_succ]
        simp
      · simp only [writeRegisterLoop, if_pos hlt, hinc]
        rw [hrun0, hret]
    · have hi0 : count - i = 0 := by omega
      refine ⟨[], s, by simp [hi0], ?_, ?_⟩
      · simp [writeRegisterLoop, hlt, hi0]
      · simp [writeRegisterLoop, hlt]

/-- Shape of every `writeBytes` run whose `start` succeeds (`count` an 8-bit value):
`m` acknowledged bytes `data[0..m)`, one more byte `data[m]` with acknowledge bit `last`,
then `stop` if `sendStop`; the result is true. -/
theorem writeBytes_traced (B : TwiMasterBase σ) (s : σ) (device : Nat) (data : Nat → Nat)
    (count : Nat) (sendStop : Bool) (hcount : count ≤ 255)
    (hstart : (B.start device .TwiDirWrite s).1 = true) :
    ∃ (m : Nat) (last : Bool) (s1 : σ),
      m < iters count ∧ (last = true → m + 1 = iters count) ∧
      writeBytes (traced B) device data count sendStop (s, []) =
        some (true, s1, Call.start device .TwiDirWrite true ::
          ((List.range' 0 m).map (fun j => Call.writeDevice (data j) true) ++
            [Call.writeDevice (data m) last] ++ if sendStop then [Call.stop] else [])) := by
  obtain ⟨m, last, s1, hm, hlast, hrun, -⟩ :=
    writeBytesLoop_traced B data 256 count 0 (B.start device .TwiDirWrite s).2
      [Call.start device .TwiDirWrite true] (by omega)
      (by unfold iters; split <;> omega)
  refine ⟨m, last, if sendStop then B.stop s1 else s1, hm, hlast, ?_⟩
  simp only [writeBytes, traced_start, hstart, if_true, List.nil_append, hrun]
  cases sendStop <;> simp [traced_stop]

/-- Shape of every `readBytes` run whose `start` succeeds (`count` an 8-bit value). -/
theorem readBytes_traced (B : TwiMasterBase σ) (s : σ) (device : Nat) (data : Nat → Nat)
    (count : Nat) (sendStop : Bool) (hcount : count ≤ 255)
    (hstart : (B.start device .TwiDirRead s).1 = true) :
    ∃ (bytes : List Nat) (data1 : Nat → Nat) (s1 : σ),
      bytes.length = iters count ∧
      readBytes (traced B) device data count sendStop (s, []) =
        some (true, data1, s1, Call.start device .TwiDirRead true ::
          ((bytes.take (iters count - 1)).map Call.readDeviceWithAck ++
            (bytes.drop (iters count - 1)).map Call.readDeviceWithNak ++
            if sendStop then [Call.stop] else [])) ∧
      (∀ j, j < iters count → bytes[j]? = some (data1 j)) ∧
      (∀ k, iters count ≤ k → data1 k = data k) := by
  obtain ⟨bytes, data1, s1, hlen, hrun, -, hmem, hframe⟩ :=
    readLoop_traced B 256 count 0 data (B.start device .TwiDirRead s).2
      [Call.start device .TwiDirRead true] (by omega)
      (by unfold iters; split <;> omega)
  refine ⟨bytes, data1, if sendStop then B.stop s1 else s1, hlen, ?_, ?_, ?_⟩
  · simp only [readBytes, traced_start, hstart, if_true, List.nil_append, hrun]
    cases sendStop <;> simp [traced_stop]
  · intro j hj
    simpa using hmem j hj
  · intro k hk
    exact hframe k (Or.inr (by omega))

/-- Shape of every multi-byte `writeRegister` run in which `start` and the write of the
register address are acknowledged: all `count` data bytes are written, then `stop`; the
result is the conjunction of the data bytes' acknowledge bits. -/
theorem writeRegisterMulti_traced (B : TwiMasterBase σ) (s : σ) (device address : Nat)
    (data : Nat → Nat) (count : Nat) (hcount : count ≤ 255)
    (hstart : (B.start device .TwiDirWrite s).1 = true)
    (haddr : (B.writeDevice address (B.start device .TwiDirWrite s).2).1 = true) :
    ∃ (acks : List Bool) (s1 : σ),
      acks.length = count ∧
      writeRegisterMulti (traced B) device address data count (s, []) =
        some (acks.all id, s1,
          [Call.start device .TwiDirWrite true, Call.writeDevice address true] ++
            List.zipWith (fun j a => Call.writeDevice (data j) a) (List.range' 0 count) acks ++
            [Call.stop]) := by
  obtain ⟨acks, s1, hlen, hrun, -⟩ :=
    writeRegisterLoop_traced B data count hcount 256 0 true
      (B.writeDevice address (B.start device .TwiDirWrite s).2).2
      [Call.start device .TwiDirWrite true, Call.writeDevice address true] (by omega)
      (by omega)
  refine ⟨acks, B.stop s1, by simpa using hlen, ?_⟩
  simp only [writeRegisterMulti, traced_start, traced_writeDevice, hstart, haddr, if_true,
    List.nil_append, List.singleton_append]
  simp only [Nat.sub_zero, Bool.true_and] at hrun
  rw [hrun]
  simp [traced_stop]

/-- Shape of every multi-byte `readRegister` run in which `start`, the write of the
register address and `repeatStart` are all acknowledged. -/
theorem readRegisterMulti_traced (B : TwiMasterBase σ) (s : σ) (device address : Nat)
    (data : Nat → Nat) (count : Nat) (hcount : count ≤ 255)
    (hstart : (B.start device .TwiDirWrite s).1 = true)
    (haddr : (B.writeDevice address (B.start device .TwiDirWrite s).2).1 = true)
    (hrep : (B.repeatStart device .TwiDirRead
      (B.writeDevice address (B.start device .TwiDirWrite s).2).2).1 = true) :
    ∃ (bytes : List Nat) (data1 : Nat → Nat) (s1 : σ),
      bytes.length = iters count ∧
      readRegisterMulti (traced B) device address data count (s, []) =
        some (true, data1, s1,
          [Call.start device .TwiDirWrite true, Call.writeDevice address true,
            Call.repeatStart device .TwiDirRead true] ++
            ((bytes.take (iters count - 1)).map Call.readDeviceWithAck ++
              (bytes.drop (iters count - 1)).map Call.readDeviceWithNak) ++ [Call.stop]) ∧
      (∀ j, j < iters count → bytes[j]? = some (data1 j)) ∧
      (∀ k, iters count ≤ k → data1 k = data k) := by
  obtain ⟨bytes, data1, s1, hlen, hrun, -, hmem, hframe⟩ :=
    readLoop_traced B 256 count 0 data
      (B.repeatStart device .TwiDirRead
        (B.writeDevice address (B.start device .TwiDirWrite s).2).2).2
      [Call.start device .TwiDirWrite true, Call.writeDevice address true,
        Call.repeatStart device .TwiDirRead true] (by omega)
      (by unfold iters; split <;> omega)
  refine ⟨bytes, data1, B.stop s1, hlen, ?_, ?_, ?_⟩
  · simp only [readRegisterMulti, traced_start, traced_writeDevice, traced_repeatStart,
      hstart, haddr, hrep, if_true, List.nil_append, List.singleton_append,
      List.cons_append]
    simp only [List.cons_append, List.nil_append] at hrun
    rw [hrun]
    simp [traced_stop]
  · intro j hj
    simpa using hmem j hj
  · intro k hk
    exact hframe k (Or.inr (by omega))

/-! ## Unacknowledged steps in a trace -/

theorem hasNak_append (l1 l2 : List Call) : hasNak (l1 ++ l2) = (hasNak l1 || hasNak l2) := by
  simp [hasNak, List.any_append]

theorem hasNak_of_no_nak (t : List Call) (h : ∀ c ∈ t, c.nak = false) : hasNak t = false := by
  simp only [hasNak, List.any_eq_false]
  intro c hc
  simp [h c hc]

theorem endsAtNak_append_of_no_nak (pre rest : List Call)
    (h : ∀ c ∈ pre, c.nak = false) : endsAtNak (pre ++ rest) = endsAtNak rest := by
  induction pre with
  | nil => rfl
  | cons c t ih =>
    have hc : c.nak = false := h c (List.mem_cons_self _ _)
    have ht : ∀ c1 ∈ t, c1.nak = false := fun c1 hc1 => h c1 (List.mem_cons_of_mem _ hc1)
    simp [endsAtNak, hc, ih ht]

theorem noDataAfterNak_append_of_no_nak (pre rest : List Call)
    (h : ∀ c ∈ pre, c.nak = false) : noDataAfterNak (pre ++ rest) = noDataAfterNak rest := by
  induction pre with
  | nil => rfl
  | cons c t ih =>
    have hc : c.nak = false := h c (List.mem_cons_self _ _)
    have ht : ∀ c1 ∈ t, c1.nak = false := fun c1 hc1 => h c1 (List.mem_cons_of_mem _ hc1)
    simp [noDataAfterNak, hc, ih ht]

theorem reads_no_nak (bytes : List Nat) (n : Nat) :
    ∀ c ∈ (bytes.take n).map Call.readDeviceWithAck ++
      (bytes.drop n).map Call.readDeviceWithNak, c.nak = false := by
  intro c hc
  simp only [List.mem_append, List.mem_map] at hc
  rcases hc with ⟨b, -, rfl⟩ | ⟨b, -, rfl⟩ <;> rfl

theorem acked_writes_no_nak (data : Nat → Nat) (l : List Nat) :
    ∀ c ∈ l.map (fun j => Call.writeDevice (data j) true), c.nak = false := by
  intro c hc
  simp only [List.mem_map] at hc
  obtain ⟨j, -, rfl⟩ := hc
  rfl

theorem hasNak_writes (data : Nat → Nat) :
    ∀ (idx : List Nat) (acks : List Bool), acks.length ≤ idx.length →
      hasNak (List.zipWith (fun j a => Call.writeDevice (data j) a) idx acks) =
        !acks.all id := by
  intro idx
  induction idx with
  | nil =>
    intro acks h
    have : acks = [] := List.length_eq_zero.mp (by simpa using h)
    subst this
    rfl
  | cons j t ih =>
    intro acks h
    cases acks with
    | nil => rfl
    | cons a as =>
      have := ih as (by simpa using h)
      simp only [hasNak] at this
      cases a <;> simp [hasNak, Call.nak, this]

theorem endsAtNak_of_no_nak (t : List Call) (h : ∀ c ∈ t, c.nak = false) :
    endsAtNak t = true := by
  have := endsAtNak_append_of_no_nak t [] h
  simpa [endsAtNak] using this

theorem readBytes_nak (B : TwiMasterBase σ) (s : σ) (device : Nat) (data : Nat → Nat)
    (count : Nat) (sendStop : Bool) (hcount : count ≤ 255) :
    ∃ res : Bool × (Nat → Nat) × σ × List Call,
      readBytes (traced B) device data count sendStop (s, []) = some res ∧
      endsAtNak res.2.2.2 = true ∧ res.1 = !hasNak res.2.2.2 := by
  cases hstart : (B.start device .TwiDirRead s).1
  · exact ⟨(false, data, (B.start device .TwiDirRead s).2,
      [Call.start device .TwiDirRead false]),
      by simp [readBytes, traced_start, hstart], by simp [endsAtNak, Call.nak], by simp [hasNak, Call.nak]⟩
  · obtain ⟨bytes, data1, s1, -, hrun, -, -⟩ :=
      readBytes_traced B s device data count sendStop hcount hstart
    have hno : ∀ c ∈ Call.start device .TwiDirRead true ::
        ((bytes.take (iters count - 1)).map Call.readDeviceWithAck ++
          (bytes.drop (iters count - 1)).map Call.readDeviceWithNak ++
          if sendStop then [Call.stop] else []), c.nak = false := by
      intro c hc
      simp only [List.mem_cons, List.mem_append] at hc
      rcases hc with rfl | hc | hc
      · rfl
      · exact reads_no_nak bytes _ c (List.mem_append.mpr hc)
      · cases sendStop <;> simp at hc
        subst hc
        rfl
    exact ⟨_, hrun, endsAtNak_of_no_nak _ hno, by rw [hasNak_of_no_nak _ hno]; rfl⟩

theorem readRegisterMulti_nak (B : TwiMasterBase σ) (s : σ) (device address : Nat)
    (data : Nat → Nat) (count : Nat) (hcount : count ≤ 255) :
    ∃ res : Bool × (Nat → Nat) × σ × List Call,
      readRegisterMulti (traced B) device address data count (s, []) = some res ∧
      endsAtNak res.2.2.2 = true ∧ res.1 = !hasNak res.2.2.2 := by
  cases hstart : (B.start device .TwiDirWrite s).1
  · exact ⟨(false, data, (B.start device .TwiDirWrite s).2,
      [Call.start device .TwiDirWrite false]),
      by simp [readRegisterMulti, traced_start, hstart], by simp [endsAtNak, Call.nak], by simp [hasNak, Call.nak]⟩
  cases haddr : (B.writeDevice address (B.start device .TwiDirWrite s).2).1
  · exact ⟨(false, data, (B.writeDevice address (B.start device .TwiDirWrite s).2).2,
      [Call.start device .TwiDirWrite true, Call.writeDevice address false]),
      by simp [readRegisterMulti, traced_start, traced_writeDevice, hstart, haddr],
      by simp [endsAtNak, Call.nak], by simp [hasNak, Call.nak]⟩
  cases hrep : (B.repeatStart device .TwiDirRead
      (B.writeDevice address (B.start device .TwiDirWrite s).2).2).1
  · exact ⟨(false, data, (B.repeatStart device .TwiDirRead
        (B.writeDevice address (B.start device .TwiDirWrite s).2).2).2,
      [Call.start device .TwiDirWrite true, Call.writeDevice address true,
        Call.repeatStart device .TwiDirRead false]),
      by simp [readRegisterMulti, traced_start, traced_writeDevice, traced_repeatStart,
        hstart, haddr, hrep],
      by simp [endsAtNak, Call.nak], by simp [hasNak, Call.nak]⟩
  · obtain ⟨bytes, data1, s1, -, hrun, -, -⟩ :=
      readRegisterMulti_traced B s device address data count hcount hstart haddr hrep
    have hno : ∀ c ∈ [Call.start device .TwiDirWrite true, Call.writeDevice address true,
        Call.repeatStart device .TwiDirRead true] ++
        ((bytes.take (iters count - 1)).map Call.readDeviceWithAck ++
          (bytes.drop (iters count - 1)).map Call.readDeviceWithNak) ++ [Call.stop],
        c.nak = false := by
      intro c hc
      simp only [List.mem_append, List.mem_cons, List.mem_singleton] at hc
      rcases hc with ((rfl | rfl | rfl | hc) | hc) | hc
      · rfl
      · rfl
      · rfl
      · simp at hc
      · exact reads_no_nak bytes _ c (List.mem_append.mpr hc)
      · rcases hc with rfl | hc
        · rfl
        · simp at hc
    exact ⟨_, hrun, endsAtNak_of_no_nak _ hno, by rw [hasNak_of_no_nak _ hno]; rfl⟩

theorem writeRegisterMulti_nak (B : TwiMasterBase σ) (s : σ) (device address : Nat)
    (data : Nat → Nat) (count : Nat) (hcount : count ≤ 255) :
    ∃ res : Bool × σ × List Call,
      writeRegisterMulti (traced B) device address data count (s, []) = some res ∧
      res.1 = !hasNak res.2.2 ∧
      ((B.start device .TwiDirWrite s).1 = false ∨
          (B.writeDevice address (B.start device .TwiDirWrite s).2).1 = false →
        endsAtNak res.2.2 = true) := by
  cases hstart : (B.start device .TwiDirWrite s).1
  · exact ⟨(false, (B.start device .TwiDirWrite s).2,
      [Call.start device .TwiDirWrite false]),
      by simp [writeRegisterMulti, traced_start, hstart], by simp [hasNak, Call.nak], fun _ => by simp [endsAtNak, Call.nak]⟩
  cases haddr : (B.writeDevice address (B.start device .TwiDirWrite s).2).1
  · exact ⟨(false, (B.writeDevice address (B.start device .TwiDirWrite s).2).2,
      [Call.start device .TwiDirWrite true, Call.writeDevice address false]),
      by simp [writeRegisterMulti, traced_start, traced_writeDevice, hstart, haddr],
      by simp [hasNak, Call.nak], fun _ => by simp [endsAtNak, Call.nak]⟩
  · obtain ⟨acks, s1, hlen, hrun⟩ :=
      writeRegisterMulti_traced B s device address data count hcount hstart haddr
    refine ⟨_, hrun, ?_, ?_⟩
    · simp only [hasNak_append]
      rw [hasNak_writes data _ acks (by simp [hlen])]
      simp [hasNak, Call.nak]
    · intro h
      simp at h

theorem writeBytes_nak (B : TwiMasterBase σ) (s : σ) (device : Nat) (data : Nat → Nat)
    (count : Nat) (sendStop : Bool) (hcount : count ≤ 255) :
    ∃ res : Bool × σ × List Call,
      writeBytes (traced B) device data count sendStop (s, []) = some res ∧
      noDataAfterNak res.2.2 = true ∧
      ((B.start device .TwiDirWrite s).1 = false →
        res.1 = false ∧ endsAtNak res.2.2 = true) := by
  cases hstart : (B.start device .TwiDirWrite s).1
  · exact ⟨(false, (B.start device .TwiDirWrite s).2,
      [Call.start device .TwiDirWrite false]),
      by simp [writeBytes, traced_start, hstart], by simp [noDataAfterNak, Call.nak], fun _ => ⟨rfl, by simp [endsAtNak, Call.nak]⟩⟩
  · obtain ⟨m, last, s1, -, -, hrun⟩ :=
      writeBytes_traced B s device data count sendStop hcount hstart
    refine ⟨_, hrun, ?_, fun h => by simp at h⟩
    have hno : ∀ c ∈ Call.start device .TwiDirWrite true ::
        (List.range' 0 m).map (fun j => Call.writeDevice (data j) true), c.nak = false := by
      intro c hc
      rcases List.mem_cons.mp hc with rfl | hc
      · rfl
      · exact acked_writes_no_nak data _ c hc
    have hsplit : Call.start device .TwiDirWrite true ::
        ((List.range' 0 m).map (fun j => Call.writeDevice (data j) true) ++
          [Call.writeDevice (data m) last] ++ if sendStop then [Call.stop] else []) =
        (Call.start device .TwiDirWrite true ::
          (List.range' 0 m).map (fun j => Call.writeDevice (data j) true)) ++
          ([Call.writeDevice (data m) last] ++ if sendStop then [Call.stop] else []) := by
      simp
    show noDataAfterNak (Call.start device .TwiDirWrite true ::
        ((List.range' 0 m).map (fun j => Call.writeDevice (data j) true) ++
          [Call.writeDevice (data m) last] ++ if sendStop then [Call.stop] else [])) = true
    rw [hsplit, noDataAfterNak_append_of_no_nak _ _ hno]
    cases last <;> cases sendStop <;> simp [noDataAfterNak, Call.nak, Call.isData]

/-- Claim C8, as the code has it (what an unacknowledged step does). `count` is an 8-bit
value. In single-byte `writeRegister`, both `readRegister` overloads and `readBytes`, an
unacknowledged step (`start`, `repeatStart` or `writeDevice`) is the last backend call of
the operation, and the operation returns false exactly when some step of its trace was
not acknowledged. Multi-byte `writeRegister` returns false exactly when some step was
not acknowledged, and makes no further call after an unacknowledged `start` or
register-address write. `writeBytes` transfers no data byte after an unacknowledged
step, and returns false with no further call when `start` is not acknowledged. -/
theorem nak_aborts_amended (B : TwiMasterBase σ) (s : σ)
    (device address byte cell count : Nat) (data : Nat → Nat) (sendStop : Bool)
    (hcount : count ≤ 255) :
    (endsAtNak (writeRegister (traced B) device address byte (s, [])).2.2 = true ∧
      (writeRegister (traced B) device address byte (s, [])).1 =
        !hasNak (writeRegister (traced B) device address byte (s, [])).2.2) ∧
    (endsAtNak (readRegister (traced B) device address cell (s, [])).2.2.2 = true ∧
      (readRegister (traced B) device address cell (s, [])).1 =
        !hasNak (readRegister (traced B) device address cell (s, [])).2.2.2) ∧
    (∃ res : Bool × (Nat → Nat) × σ × List Call,
      readRegisterMulti (traced B) device address data count (s, []) = some res ∧
      endsAtNak res.2.2.2 = true ∧ res.1 = !hasNak res.2.2.2) ∧
    (∃ res : Bool × (Nat → Nat) × σ × List Call,
      readBytes (traced B) device data count sendStop (s, []) = some res ∧
      endsAtNak res.2.2.2 = true ∧ res.1 = !hasNak res.2.2.2) ∧
    (∃ res : Bool × σ × List Call,
      writeRegisterMulti (traced B) device address data count (s, []) = some res ∧
      res.1 = !hasNak res.2.2 ∧
      ((B.start device .TwiDirWrite s).1 = false ∨
          (B.writeDevice address (B.start device .TwiDirWrite s).2).1 = false →
        endsAtNak res.2.2 = true)) ∧
    (∃ res : Bool × σ × List Call,
      writeBytes (traced B) device data count sendStop (s, []) = some res ∧
      noDataAfterNak res.2.2 = true ∧
      ((B.start device .TwiDirWrite s).1 = false →
        res.1 = false ∧ endsAtNak res.2.2 = true)) := by
  refine ⟨?_, ?_, readRegisterMulti_nak B s device address data count hcount,
    readBytes_nak B s device data count sendStop hcount,
    writeRegisterMulti_nak B s device address data count hcount,
    writeBytes_nak B s device data count sendStop hcount⟩
  · simp only [writeRegister, traced_start, traced_writeDevice, traced_stop]
    cases h1 : (B.start device twiDir_t.TwiDirWrite s).1 <;>
    cases h2 : (B.writeDevice address (B.start device twiDir_t.TwiDirWrite s).2).1 <;>
    cases h3 : (B.writeDevice byte
        (B.writeDevice address (B.start device twiDir_t.TwiDirWrite s).2).2).1 <;>
    simp [h1, h2, h3, endsAtNak, hasNak, Call.nak]
  · simp only [readRegister, traced_start, traced_writeDevice, traced_repeatStart,
      traced_readDeviceWithNak, traced_stop]
    cases h1 : (B.start device twiDir_t.TwiDirWrite s).1 <;>
    cases h2 : (B.writeDevice address (B.start device twiDir_t.TwiDirWrite s).2).1 <;>
    cases h3 : (B.repeatStart device twiDir_t.TwiDirRead
        (B.writeDevice address (B.start device twiDir_t.TwiDirWrite s).2).2).1 <;>
    simp [h1, h2, h3, endsAtNak, hasNak, Call.nak]

/-- Witness for the amended C8: multi-byte `writeRegister` and `writeBytes` of two bytes
to a device that acknowledges its address and every written byte except the second one
on the bus. -/
theorem nak_aborts_amended_witness :
    (∃ res : Bool × SimState × List Call,
      writeRegisterMulti (traced (simBackend nakSecond)) 0x50 7 (fun i => 10 + i) 2
        (⟨0, 0⟩, []) = some res ∧
      res.1 = !hasNak res.2.2 ∧
      (((simBackend nakSecond).start 0x50 .TwiDirWrite ⟨0, 0⟩).1 = false ∨
          ((simBackend nakSecond).writeDevice 7
            ((simBackend nakSecond).start 0x50 .TwiDirWrite ⟨0, 0⟩).2).1 = false →
        endsAtNak res.2.2 = true)) ∧
    (∃ res : Bool × SimState × List Call,
      writeBytes (traced (simBackend nakSecond)) 0x50 (fun i => 10 + i) 2 true
        (⟨0, 0⟩, []) = some res ∧
      noDataAfterNak res.2.2 = true ∧
      (((simBackend nakSecond).start 0x50 .TwiDirWrite ⟨0, 0⟩).1 = false →
        res.1 = false ∧ endsAtNak res.2.2 = true)) :=
  (nak_aborts_amended (simBackend nakSecond) ⟨0, 0⟩ 0x50 7 0 0 2 (fun i => 10 + i) true
    (by decide)).2.2.2.2

/-- Counterexample to C8 as stated. `writeBytes` to a device that acknowledges its
address but not the first data byte returns true although a step was not acknowledged;
multi-byte `writeRegister` to a device that does not acknowledge the first data byte
still writes the second data byte after it. -/
theorem nak_not_always_abort_and_false :
    writeBytes (traced (simBackend nakWrite)) 0x50 (fun i => 10 + i) 2 true (⟨0, 0⟩, []) =
        some (true, ⟨1, 0⟩, [Call.start 0x50 .TwiDirWrite true, Call.writeDevice 10 false,
          Call.stop]) ∧
      hasNak [Call.start 0x50 .TwiDirWrite true, Call.writeDevice 10 false, Call.stop] = true ∧
      writeRegisterMulti (traced (simBackend nakSecond)) 0x50 7 (fun i => 10 + i) 2
          (⟨0, 0⟩, []) =
        some (false, ⟨3, 0⟩, [Call.start 0x50 .TwiDirWrite true, Call.writeDevice 7 true,
          Call.writeDevice 10 false, Call.writeDevice 11 true, Call.stop]) ∧
      noDataAfterNak [Call.start 0x50 .TwiDirWrite true, Call.writeDevice 7 true,
          Call.writeDevice 10 false, Call.writeDevice 11 true, Call.stop] = false := by
  refine ⟨by decide, by decide, by decide, by decide⟩

/-! ## `stop` after `start` -/

/-- Claim C9, as the code has it (when `stop` follows a successful `start`). `count` is an
8-bit value. `writeBytes` and `readBytes` with `sendStop = true` end with `stop` whenever
their `start` succeeds, whatever the data bytes' acknowledge bits. After a successful
`start`: single-byte `writeRegister` issues `stop` when both of its writes are
acknowledged and issues none when the register-address write is not; multi-byte
`writeRegister` issues `stop` if and only if the register-address write is acknowledged;
both `readRegister` overloads issue `stop` if and only if the register-address write and
`repeatStart` are acknowledged. -/
theorem stop_after_start_amended (B : TwiMasterBase σ) (s : σ)
    (device address byte cell count : Nat) (data : Nat → Nat) (hcount : count ≤ 255) :
    ((B.start device .TwiDirWrite s).1 = true →
      (∃ res : Bool × σ × List Call,
        writeBytes (traced B) device data count true (s, []) = some res ∧
        res.2.2.getLast? = some Call.stop) ∧
      (((B.writeDevice address (B.start device .TwiDirWrite s).2).1 = true ∧
          (B.writeDevice byte
            (B.writeDevice address (B.start device .TwiDirWrite s).2).2).1 = true →
          Call.stop ∈ (writeRegister (traced B) device address byte (s, [])).2.2) ∧
        ((B.writeDevice address (B.start device .TwiDirWrite s).2).1 = false →
          Call.stop ∉ (writeRegister (traced B) device address byte (s, [])).2.2)) ∧
      (∃ res : Bool × σ × List Call,
        writeRegisterMulti (traced B) device address data count (s, []) = some res ∧
        (Call.stop ∈ res.2.2 ↔
          (B.writeDevice address (B.start device .TwiDirWrite s).2).1 = true)) ∧
      (Call.stop ∈ (readRegister (traced B) device address cell (s, [])).2.2.2 ↔
        (B.writeDevice address (B.start device .TwiDirWrite s).2).1 = true ∧
        (B.repeatStart device .TwiDirRead
          (B.writeDevice address (B.start device .TwiDirWrite s).2).2).1 = true) ∧
      (∃ res : Bool × (Nat → Nat) × σ × List Call,
        readRegisterMulti (traced B) device address data count (s, []) = some res ∧
        (Call.stop ∈ res.2.2.2 ↔
          (B.writeDevice address (B.start device .TwiDirWrite s).2).1 = true ∧
          (B.repeatStart device .TwiDirRead
            (B.writeDevice address (B.start device .TwiDirWrite s).2).2).1 = true))) ∧
    ((B.start device .TwiDirRead s).1 = true →
      ∃ res : Bool × (Nat → Nat) × σ × List Call,
        readBytes (traced B) device data count true (s, []) = some res ∧
        res.2.2.2.getLast? = some Call.stop) := by
  constructor
  · intro hstart
    refine ⟨?_, ?_, ?_, ?_, ?_⟩
    · obtain ⟨m, last, s1, -, -, hrun⟩ :=
        writeBytes_traced B s device data count true hcount hstart
      refine ⟨_, hrun, ?_⟩
      simp only [if_true]
      rw [← List.cons_append, List.getLast?_append]
      rfl
    · simp only [writeRegister, traced_start, traced_writeDevice, traced_stop, hstart]
      cases h2 : (B.writeDevice address (B.start device twiDir_t.TwiDirWrite s).2).1 <;>
      cases h3 : (B.writeDevice byte
          (B.writeDevice address (B.start device twiDir_t.TwiDirWrite s).2).2).1 <;>
      simp [h2, h3]
    · cases haddr : (B.writeDevice address (B.start device .TwiDirWrite s).2).1
      · exact ⟨(false, (B.writeDevice address (B.start device .TwiDirWrite s).2).2,
          [Call.start device .TwiDirWrite true, Call.writeDevice address false]),
          by simp [writeRegisterMulti, traced_start, traced_writeDevice, hstart, haddr],
          by simp⟩
      · obtain ⟨acks, s1, -, hrun⟩ :=
          writeRegisterMulti_traced B s device address data count hcount hstart haddr
        exact ⟨_, hrun, by simp⟩
    · simp only [readRegister, traced_start, traced_writeDevice, traced_repeatStart,
        traced_readDeviceWithNak, traced_stop, hstart]
      cases h2 : (B.writeDevice address (B.start device twiDir_t.TwiDirWrite s).2).1 <;>
      cases h3 : (B.repeatStart device twiDir_t.TwiDirRead
          (B.writeDevice address (B.start device twiDir_t.TwiDirWrite s).2).2).1 <;>
      simp [h2, h3]
    · cases haddr : (B.writeDevice address (B.start device .TwiDirWrite s).2).1
      · exact ⟨(false, data, (B.writeDevice address (B.start device .TwiDirWrite s).2).2,
          [Call.start device .TwiDirWrite true, Call.writeDevice address false]),
          by simp [readRegisterMulti, traced_start, traced_writeDevice, hstart, haddr],
          by simp⟩
      cases hrep : (B.repeatStart device .TwiDirRead
          (B.writeDevice address (B.start device .TwiDirWrite s).2).2).1
      · exact ⟨(false, data, (B.repeatStart device .TwiDirRead
            (B.writeDevice address (B.start device .TwiDirWrite s).2).2).2,
          [Call.start device .TwiDirWrite true, Call.writeDevice address true,
            Call.repeatStart device .TwiDirRead false]),
          by simp [readRegisterMulti, traced_start, traced_writeDevice, traced_repeatStart,
            hstart, haddr, hrep],
          by simp⟩
      · obtain ⟨bytes, data1, s1, -, hrun, -, -⟩ :=
          readRegisterMulti_traced B s device address data count hcount hstart haddr hrep
        exact ⟨_, hrun, by simp⟩
  · intro hstart
    obtain ⟨bytes, data1, s1, -, hrun, -, -⟩ :=
      readBytes_traced B s device data count true hcount hstart
    refine ⟨_, hrun, ?_⟩
    simp only [if_true]
    rw [← List.cons_append, List.getLast?_append]
    rfl

/-- Witness for the amended C9: the operations against a device that acknowledges
its address but no written byte. -/
theorem stop_after_start_amended_witness :
    (simBackend nakWrite).start 0x50 .TwiDirRead ⟨0, 0⟩ = (true, ⟨0, 0⟩) ∧
      ∃ res : Bool × (Nat → Nat) × SimState × List Call,
        readBytes (traced (simBackend nakWrite)) 0x50 (fun _ => 0) 2 true (⟨0, 0⟩, []) =
          some res ∧
        res.2.2.2.getLast? = some Call.stop :=
  ⟨rfl, (stop_after_start_amended (simBackend nakWrite) ⟨0, 0⟩ 0x50 0x10 0xAB 0 2
    (fun _ => 0) (by decide)).2 rfl⟩

/-- Counterexample to C9 as stated: against a device that acknowledges its address
but not the register address, `start` succeeds and single-byte `writeRegister` returns
false after `writeDevice(0x10)` without issuing `stop`. -/
theorem writeRegister_nak_without_stop :
    ((simBackend nakWrite).start 0x50 .TwiDirWrite ⟨0, 0⟩).1 = true ∧
      writeRegister (traced (simBackend nakWrite)) 0x50 0x10 0xAB (⟨0, 0⟩, []) =
        (false, ⟨1, 0⟩, [Call.start 0x50 .TwiDirWrite true, Call.writeDevice 0x10 false]) ∧
      Call.stop ∉ [Call.start 0x50 .TwiDirWrite true, Call.writeDevice 0x10 false] := by
  refine ⟨by decide, by decide, by decide⟩

end AvrTwi

/-! # Second part: further claims on the TWI engine -/

namespace AvrTwi

open TwiMasterBase

variable {σ η : Type}

/-- Claim C11, as the code has it (multi-byte `writeRegister` and `stop`). `count` is an
8-bit value and `start` succeeds. When the write of the register address is not
acknowledged the operation returns false and its trace is `start`, `writeDevice(regAddr)`
only: no `stop` is issued. When the register address is acknowledged the operation ends
with `stop`, also when data bytes are not acknowledged. -/
theorem writeRegisterMulti_stop_amended (B : TwiMasterBase σ) (s : σ)
    (device address : Nat) (data : Nat → Nat) (count : Nat) (hcount : count ≤ 255)
    (hstart : (B.start device .TwiDirWrite s).1 = true) :
    ((B.writeDevice address (B.start device .TwiDirWrite s).2).1 = false →
      writeRegisterMulti (traced B) device address data count (s, []) =
        some (false, (B.writeDevice address (B.start device .TwiDirWrite s).2).2,
          [Call.start device .TwiDirWrite true, Call.writeDevice address false])) ∧
    ((B.writeDevice address (B.start device .TwiDirWrite s).2).1 = true →
      ∃ res : Bool × σ × List Call,
        writeRegisterMulti (traced B) device address data count (s, []) = some res ∧
        res.2.2.getLast? = some Call.stop ∧
        res.1 = !hasNak res.2.2) := by
  constructor
  · intro haddr
    simp [writeRegisterMulti, traced_start, traced_writeDevice, hstart, haddr]
  · intro haddr
    obtain ⟨acks, s1, hlen, hrun⟩ :=
      writeRegisterMulti_traced B s device address data count hcount hstart haddr
    refine ⟨_, hrun, ?_, ?_⟩
    · show (_ ++ [Call.stop]).getLast? = some Call.stop
      rw [List.getLast?_append]
      rfl
    · simp only [hasNak_append]
      rw [hasNak_writes data _ acks (by simp [hlen])]
      simp [hasNak, Call.nak]

/-- Witness for the amended C11: two data bytes to a device that acknowledges its address
and the register address but not the first data byte; `stop` is still the last call. -/
theorem writeRegisterMulti_stop_amended_witness :
    ∃ res : Bool × SimState × List Call,
      writeRegisterMulti (traced (simBackend nakSecond)) 0x50 7 (fun i => 10 + i) 2
        (⟨0, 0⟩, []) = some res ∧
      res.2.2.getLast? = some Call.stop ∧
      res.1 = !hasNak res.2.2 :=
  (writeRegisterMulti_stop_amended (simBackend nakSecond) ⟨0, 0⟩ 0x50 7 (fun i => 10 + i) 2
    (by decide) rfl).2 rfl

/-- Counterexample to C11 as stated: against a device that acknowledges its address but
not the register address, `start` succeeds, the write of the register address fails, and
multi-byte `writeRegister` returns false without having called `stop`. -/
theorem writeRegisterMulti_addr_nak_without_stop :
    ((simBackend nakWrite).start 0x50 .TwiDirWrite ⟨0, 0⟩).1 = true ∧
      writeRegisterMulti (traced (simBackend nakWrite)) 0x50 7 (fun i => 10 + i) 2
          (⟨0, 0⟩, []) =
        some (false, ⟨1, 0⟩, [Call.start 0x50 .TwiDirWrite true, Call.writeDevice 7 false]) ∧
      Call.stop ∉ [Call.start 0x50 .TwiDirWrite true, Call.writeDevice 7 false] := by
  refine ⟨by decide, by decide, by decide⟩

/-- Claim C12 (`repeatStart` is `start` in the hardware backend). For every peripheral,
poll bound, device, direction and prior state, write log included, `repeatStart` gives
the same outcome as `start`: the same termination, the same Boolean, the same register
writes and the same final hardware state. -/
theorem repeatStart_eq_start (H : TwiPeripheral η) (fuel device : Nat) (read : twiDir_t)
    (h : η) (log : List (Reg × Nat)) :
    TwiMaster.repeatStart (logged H) fuel device read (h, log) =
        TwiMaster.start (logged H) fuel device read (h, log) ∧
      TwiMaster.repeatStart H fuel device read h = TwiMaster.start H fuel device read h :=
  ⟨rfl, rfl⟩

/-- Claim C20 (`writeBytes` write order and early stop). For every `writeBytes` call with
`1 ≤ count ≤ 255` whose `start` succeeds, on every backend: the `writeDevice` calls are
`data[0], data[1], ..., data[m]` in index order for some `m < count`; the bytes before
`data[m]` were all acknowledged; `data[m]` is either not acknowledged or the last byte
`data[count-1]`. So no byte follows a NAKed byte and none is written twice. -/
theorem writeBytes_order (B : TwiMasterBase σ) (s : σ) (device : Nat) (data : Nat → Nat)
    (count : Nat) (sendStop : Bool) (h1 : 1 ≤ count) (h255 : count ≤ 255)
    (hstart : (B.start device .TwiDirWrite s).1 = true) :
    ∃ (m : Nat) (last : Bool) (s1 : σ),
      m < count ∧ (last = true → m + 1 = count) ∧
      writeBytes (traced B) device data count sendStop (s, []) =
        some (true, s1, Call.start device .TwiDirWrite true ::
          ((List.range' 0 m).map (fun j => Call.writeDevice (data j) true) ++
            [Call.writeDevice (data m) last] ++ if sendStop then [Call.stop] else [])) := by
  have hit : iters count = count := by
    unfold iters
    rw [if_neg (by omega)]
  obtain ⟨m, last, s1, hm, hlast, hrun⟩ :=
    writeBytes_traced B s device data count sendStop h255 hstart
  rw [hit] at hm hlast
  exact ⟨m, last, s1, hm, hlast, hrun⟩

/-- Witness for C20: three bytes to a device that acknowledges its address and the first
byte but not the second. -/
theorem writeBytes_order_witness :
    writeBytes (traced (simBackend nakData)) 0x50 (fun i => 10 + i) 3 false (⟨0, 0⟩, []) =
        some (true, ⟨2, 0⟩, [Call.start 0x50 .TwiDirWrite true, Call.writeDevice 10 true,
          Call.writeDevice 11 false]) ∧
      ∃ (m : Nat) (last : Bool) (s1 : SimState),
        m < 3 ∧ (last = true → m + 1 = 3) ∧
        writeBytes (traced (simBackend nakData)) 0x50 (fun i => 10 + i) 3 false
            (⟨0, 0⟩, []) =
          some (true, s1, Call.start 0x50 .TwiDirWrite true ::
            ((List.range' 0 m).map (fun j => Call.writeDevice ((fun i => 10 + i) j) true) ++
              [Call.writeDevice ((fun i => 10 + i) m) last] ++
              if false = true then [Call.stop] else [])) :=
  ⟨by decide, writeBytes_order (simBackend nakData) ⟨0, 0⟩ 0x50
    (fun i => 10 + i) 3 false (by decide) (by decide) rfl⟩

end AvrTwi

namespace AvrTwi

/-! ## The hardware backend on the simulated peripheral -/

theorem BusSim.complete_countdown (s : BusSim) (k : Nat) :
    ({ s with countdown := k } : BusSim).complete = s.complete := by
  cases hj : s.job <;> simp [BusSim.complete, hj]

theorem busSim_read_TWCR_last (s : BusSim) (hc : s.countdown = 1) :
    busSim.read .TWCR s = (s.complete.flags, s.complete) := by
  simp [busSim, hc]

theorem busSim_read_TWCR_busy (s : BusSim) (k : Nat) (hc : s.countdown = k + 2) :
    busSim.read .TWCR s = (s.flags, { s with countdown := k + 1 }) := by
  simp [busSim, hc]

theorem waitTransComplete_busSim :
    ∀ (k fuel : Nat) (s : BusSim), s.countdown = k + 1 → k < fuel →
      (s.job = .startCondition ∨ s.job = .transfer) → s.twint = false →
      TwiMaster.waitTransComplete busSim fuel s = some s.complete := by
  intro k
  induction k with
  | zero =>
    intro fuel s hc hf hjob _
    obtain ⟨f, rfl⟩ : ∃ f, fuel = f + 1 := ⟨fuel - 1, by omega⟩
    simp only [TwiMaster.waitTransComplete, busSim_read_TWCR_last s hc]
    have hflags : s.complete.flags &&& _BV TWINT ≠ 0 := by
      rcases hjob with hj | hj <;>
        simp [BusSim.complete, BusSim.flags, hj, _BV, TWINT, TWSTO, TWEN]
    rw [if_neg hflags]
  | succ k ih =>
    intro fuel s hc hf hjob htw
    obtain ⟨f, rfl⟩ : ∃ f, fuel = f + 1 := ⟨fuel - 1, by omega⟩
    simp only [TwiMaster.waitTransComplete, busSim_read_TWCR_busy s k hc]
    have hflags : s.flags &&& _BV TWINT = 0 := by
      rcases hjob with hj | hj <;>
        simp [BusSim.flags, hj, htw, _BV, TWINT, TWSTO, TWEN] <;> decide
    rw [if_pos hflags, ih f { s with countdown := k + 1 } rfl (by omega) hjob htw,
      BusSim.complete_countdown]

theorem stopWait_busSim :
    ∀ (k fuel : Nat) (s : BusSim), s.countdown = k + 1 → k < fuel →
      s.job = .stopCondition →
      TwiMaster.stopWait busSim fuel s = some s.complete := by
  intro k
  induction k with
  | zero =>
    intro fuel s hc hf hjob
    obtain ⟨f, rfl⟩ : ∃ f, fuel = f + 1 := ⟨fuel - 1, by omega⟩
    simp only [TwiMaster.stopWait, busSim_read_TWCR_last s hc]
    have hflags : ¬ (s.complete.flags &&& _BV TWSTO ≠ 0) := by
      simp [BusSim.complete, BusSim.flags, hjob, _BV, TWINT, TWSTO, TWEN]
      decide
    rw [if_neg hflags]
  | succ k ih =>
    intro fuel s hc hf hjob
    obtain ⟨f, rfl⟩ : ∃ f, fuel = f + 1 := ⟨fuel - 1, by omega⟩
    simp only [TwiMaster.stopWait, busSim_read_TWCR_busy s k hc]
    have hflags : s.flags &&& _BV TWSTO ≠ 0 := by
      cases htw : s.twint <;>
        simp [BusSim.flags, hjob, htw, _BV, TWINT, TWSTO, TWEN]
    rw [if_pos hflags, ih f { s with countdown := k + 1 } rfl (by omega) hjob,
      BusSim.complete_countdown]

/-- On the simulated peripheral `stop` returns as soon as the poll bound exceeds the
latency, and leaves the bus released. -/
theorem stop_busSim (s : BusSim) (fuel : Nat) (hf : s.latency < fuel) :
    TwiMaster.stop busSim fuel s =
      some { s with countdown := 0, job := .idle, twint := false, owned := false,
                    twsr := 0xF8 } := by
  have hw : busSim.write .TWCR (_BV TWINT ||| _BV TWEN ||| _BV TWSTO) s =
      { s with job := .stopCondition, countdown := s.latency + 1, twint := false } := by
    simp [busSim, _BV, TWINT, TWEN, TWSTO]
  rw [TwiMaster.stop, hw, stopWait_busSim s.latency fuel _ rfl hf rfl]
  simp [BusSim.complete]

theorem startCondition_busSim (s : BusSim) (fuel : Nat) (hf : s.latency < fuel) :
    TwiMaster.waitTransComplete busSim fuel
        (busSim.write .TWCR (_BV TWINT ||| _BV TWSTA ||| _BV TWEN) s) =
      some { s with countdown := 0, job := .idle, twint := true, owned := true,
                    twsr := if s.owned then TW_REP_START else TW_START } := by
  have hw : busSim.write .TWCR (_BV TWINT ||| _BV TWSTA ||| _BV TWEN) s =
      { s with job := .startCondition, countdown := s.latency + 1, twint := false } := by
    simp [busSim, _BV, TWINT, TWEN, TWSTA, TWSTO]
    decide
  rw [hw, waitTransComplete_busSim s.latency fuel _ rfl hf (Or.inl rfl) rfl]
  simp [BusSim.complete]

theorem transfer_busSim (s : BusSim) (fuel : Nat) (hf : s.latency < fuel) :
    TwiMaster.waitTransComplete busSim fuel
        (busSim.write .TWCR (_BV TWINT ||| _BV TWEN ||| _BV TWEA) s) =
      some { s with countdown := 0, job := .idle, twint := true,
                    twsr := if s.twsr = TW_START ∨ s.twsr = TW_REP_START then
                        (if s.twdr % 2 = 1 then TW_MR_SLA_ACK else TW_MT_SLA_ACK)
                      else TW_MT_DATA_ACK } := by
  have hw : busSim.write .TWCR (_BV TWINT ||| _BV TWEN ||| _BV TWEA) s =
      { s with job := .transfer, countdown := s.latency + 1, twint := false } := by
    rfl
  rw [hw, waitTransComplete_busSim s.latency fuel _ rfl hf (Or.inr rfl) rfl]
  simp [BusSim.complete]

theorem busSim_read_TWSR (s : BusSim) : busSim.read .TWSR s = (s.twsr, s) := rfl

theorem busSim_write_TWDR (s : BusSim) (v : Nat) :
    busSim.write .TWDR v s = { s with twdr := v } := rfl

/-- On the simulated peripheral `start` returns true as soon as the poll bound exceeds
the latency, whatever the prior state. -/
theorem start_busSim (s : BusSim) (fuel device : Nat) (read : twiDir_t)
    (hf : s.latency < fuel) :
    ∃ s1 : BusSim, TwiMaster.start busSim fuel device read s = some (true, s1) ∧
      s1.latency = s.latency := by
  simp only [TwiMaster.start, TwiMaster.TW_STATUS, startCondition_busSim s fuel hf,
    busSim_read_TWSR, busSim_write_TWDR]
  have hcond : ¬ ((if s.owned = true then TW_REP_START else TW_START) &&& TW_STATUS_MASK ≠
      TW_START ∧ (if s.owned = true then TW_REP_START else TW_START) &&& TW_STATUS_MASK ≠
      TW_REP_START) := by
    cases s.owned <;> simp [TW_START, TW_REP_START, TW_STATUS_MASK] <;> decide
  rw [if_neg hcond, transfer_busSim
    ⟨s.latency, 0, .idle, true, true, if s.owned = true then TW_REP_START else TW_START,
      TwiMaster.slarw device read⟩ fuel hf]
  simp only [busSim_read_TWSR]
  have hcond2 : ¬ ((if (if s.owned = true then TW_REP_START else TW_START) = TW_START ∨
        (if s.owned = true then TW_REP_START else TW_START) = TW_REP_START then
          (if TwiMaster.slarw device read % 2 = 1 then TW_MR_SLA_ACK else TW_MT_SLA_ACK)
        else TW_MT_DATA_ACK) &&& TW_STATUS_MASK ≠ TW_MT_SLA_ACK ∧
      (if (if s.owned = true then TW_REP_START else TW_START) = TW_START ∨
        (if s.owned = true then TW_REP_START else TW_START) = TW_REP_START then
          (if TwiMaster.slarw device read % 2 = 1 then TW_MR_SLA_ACK else TW_MT_SLA_ACK)
        else TW_MT_DATA_ACK) &&& TW_STATUS_MASK ≠ TW_MR_SLA_ACK) := by
    cases s.owned <;> by_cases hp : TwiMaster.slarw device read % 2 = 1 <;>
      simp [hp, TW_START, TW_REP_START, TW_STATUS_MASK, TW_MT_SLA_ACK, TW_MR_SLA_ACK] <;>
      decide
  rw [if_neg hcond2]
  exact ⟨_, rfl, rfl⟩

/-- Claim C13 (idempotent stop), on the simulated peripheral with a device that
acknowledges everything. For every latency of the peripheral and every poll bound above
it: `stop()` on the idle bus returns and leaves the peripheral exactly as it was, and
the sequence `start(d, dir)`, `stop()`, `stop()`, `start(d, dir)` returns with both
`start` calls true. -/
theorem stop_idempotent (latency fuel device : Nat) (read : twiDir_t)
    (hfuel : latency < fuel) :
    TwiMaster.stop busSim fuel (busIdle latency) = some (busIdle latency) ∧
      ∃ h : BusSim,
        TwiMaster.startStopStopStart busSim fuel device read (busIdle latency) =
          some (true, true, h) := by
  constructor
  · rw [stop_busSim _ fuel hfuel]
    rfl
  · obtain ⟨s1, hs1, hl1⟩ := start_busSim (busIdle latency) fuel device read hfuel
    have hl1f : s1.latency < fuel := by rw [hl1]; exact hfuel
    have hstop1 : TwiMaster.stop busSim fuel s1 =
        some ⟨s1.latency, 0, .idle, false, false, 0xF8, s1.twdr⟩ := by
      rw [stop_busSim s1 fuel hl1f]
    have hstop2 : TwiMaster.stop busSim fuel
        ⟨s1.latency, 0, .idle, false, false, 0xF8, s1.twdr⟩ =
        some ⟨s1.latency, 0, .idle, false, false, 0xF8, s1.twdr⟩ :=
      (stop_busSim ⟨s1.latency, 0, .idle, false, false, 0xF8, s1.twdr⟩ fuel hl1f).trans rfl
    obtain ⟨s4, hs4, -⟩ := start_busSim
      ⟨s1.latency, 0, .idle, false, false, 0xF8, s1.twdr⟩ fuel device read hl1f
    refine ⟨s4, ?_⟩
    simp only [TwiMaster.startStopStopStart, hs1, hstop1, hstop2, hs4]

/-- Witness for C13: latency 3, poll bound 5, device `0x50`, direction read. -/
theorem stop_idempotent_witness :
    TwiMaster.stop busSim 5 (busIdle 3) = some (busIdle 3) ∧
      ∃ h : BusSim,
        TwiMaster.startStopStopStart busSim 5 0x50 .TwiDirRead (busIdle 3) =
          some (true, true, h) :=
  stop_idempotent 3 5 0x50 .TwiDirRead (by decide)

end AvrTwi

/-! # Third part: the register wrappers -/

namespace AvrCore

/-- Claim C14 at its failing input (AnalogInput sector range). With `sectors = 33` the
constructor stores `div = 1023 / 32 = 31`, and for the full-scale reading 1023
`readSector` returns `1023 / 31 = 33`, which is above `sectors - 1 = 32`. -/
theorem readSector_above_range :
    AnalogInput.div 33 = some 31 ∧ AnalogInput.readSector 31 1023 = some 33 ∧
      ¬ (33 ≤ 33 - 1) := by
  refine ⟨by decide, by decide, by decide⟩

/-- Claim C15 at its failing input (TWI bit rate). With `F_CPU = 1800000`, inside the
documented range, and `fast = true`, the quotient `F_CPU / 400000` is 4, below 16, so the
numerator is negative: the value computed is `-6`, and `TWBR` receives 250. -/
theorem setSpeed_underflow :
    (1800000 : Int).tdiv 400000 = 4 ∧
      AvrTwi.TwiMaster.setSpeedValue 1800000 true = -6 ∧
      AvrTwi.TwiMaster.setSpeed 1800000 true = 250 := by
  refine ⟨by decide, by decide, by decide⟩

/-- Claim C16 at its failing input (Timer8 compare B). For every register content and
every value `v`, `readCompareB` after `writeCompareB(v)` returns the content of `TCCRnB`,
not `v`: with all registers 0 and `v = 0x55` it returns 0, where `readCompareA` after
`writeCompareA(0x55)` returns `0x55`. -/
theorem readCompareB_reads_tccrb (t : Timer8Regs) (v : Nat) :
    Timer8.readCompareB (Timer8.writeCompareB v t) = t.tccrbRegx ∧
      Timer8.readCompareB (Timer8.writeCompareB 0x55 ⟨0, 0, 0, 0, 0, 0, 0⟩) = 0 ∧
      Timer8.readCompareA (Timer8.writeCompareA 0x55 ⟨0, 0, 0, 0, 0, 0, 0⟩) = 0x55 :=
  ⟨rfl, rfl, rfl⟩

set_option maxRecDepth 100000 in
/-- Claim C17 at its failing input (Uart parity). From `UCSRnC = 0`, `setParity(parityEven)`
leaves `UCSRnC = 0x02`: the parity field (bits 5:4) is 0, not 2, and bit 1, outside the
field, has changed. From `UCSRnC = 0x30`, `setParity(parityOdd)` leaves `0x03`. For every
8-bit content the parity field is 0 after `setParity(parityEven)` and after
`setParity(parityOdd)`. -/
theorem setParity_misses_field :
    Uart.setParity .parityEven 0 = 0x02 ∧
      Uart.parityField (Uart.setParity .parityEven 0) = 0 ∧
      Nat.testBit (Uart.setParity .parityEven 0) 1 = true ∧
      Uart.setParity .parityOdd 0x30 = 0x03 ∧
      (∀ c : Fin 256, Uart.parityField (Uart.setParity .parityEven c.val) = 0 ∧
        Uart.parityField (Uart.setParity .parityOdd c.val) = 0) := by
  refine ⟨by decide, by decide, by decide, by decide, by decide⟩

set_option maxRecDepth 100000 in
/-- Claim C18 at its failing input (pin-change flag). For group bit index 0, `getIntFlag`
tests bit 1 of `PCIFR`, the bit number `1 << 0`: with `PCIFR = 0x01` (bit 0 set) it
returns false, with `PCIFR = 0x02` (bit 0 clear) it returns true; `clearIntFlag` for the
same group writes bit 0. For every 8-bit content, `getIntFlag` of group 0 is bit 1 of
`PCIFR`, and `getIntFlag` of group 3 is false. -/
theorem getIntFlag_wrong_bit :
    PinChangeInt.getIntFlag 0x01 0 = false ∧ Nat.testBit 0x01 0 = true ∧
      PinChangeInt.getIntFlag 0x02 0 = true ∧ Nat.testBit 0x02 0 = false ∧
      PinChangeInt.clearIntFlag 0 0 = 0x01 ∧
      (∀ c : Fin 256, PinChangeInt.getIntFlag c.val 0 = Nat.testBit c.val 1 ∧
        PinChangeInt.getIntFlag c.val 3 = false) := by
  refine ⟨by decide, by decide, by decide, by decide, by decide, by decide⟩

set_option maxRecDepth 100000 in
/-- Claim C19 at its failing input (Timer8 waveform mode). From `TCCRnA = TCCRnB = 0`,
`setWavegenMode(Wgen8PwmPhaseO)` (mode 5) leaves `TCCRnA = 1` and `TCCRnB = 0x20`: bit
`WGM02` (bit 3) is clear although bit 2 of the mode is set, and bit 5 of `TCCRnB` has
changed. For every 8-bit content of `TCCRnB`, that call leaves `WGM02` clear and bit 5
set. -/
theorem setWavegenMode_misses_wgm02 :
    Timer8.setWavegenMode .Wgen8PwmPhaseO ⟨0, 0, 0, 0, 0, 0, 0⟩ =
        ⟨1, 0x20, 0, 0, 0, 0, 0⟩ ∧
      Nat.testBit 0x20 WGM02 = false ∧
      Nat.testBit wavegenMode8_t.Wgen8PwmPhaseO.toNat 2 = true ∧
      Nat.testBit 0x20 5 = true ∧
      (∀ b : Fin 256,
        Nat.testBit (Timer8.setWavegenMode .Wgen8PwmPhaseO
          ⟨0, b.val, 0, 0, 0, 0, 0⟩).tccrbRegx WGM02 = false ∧
        Nat.testBit (Timer8.setWavegenMode .Wgen8PwmPhaseO
          ⟨0, b.val, 0, 0, 0, 0, 0⟩).tccrbRegx 5 = true) := by
  refine ⟨by decide, by decide, by decide, by decide, by decide⟩

end AvrCore

/-! # Fourth part: the remaining claims on the TWI engine -/

namespace AvrTwi

open TwiMasterBase

variable {σ η : Type}

theorem stop_not_mem_reads (bytes : List Nat) (n : Nat) :
    Call.stop ∉ (bytes.take n).map Call.readDeviceWithAck ++
      (bytes.drop n).map Call.readDeviceWithNak := by
  intro h
  simp only [List.mem_append, List.mem_map] at h
  rcases h with ⟨b, -, hb⟩ | ⟨b, -, hb⟩ <;> cases hb

theorem stop_not_mem_acked_writes (data : Nat → Nat) (l : List Nat) :
    Call.stop ∉ l.map (fun j => Call.writeDevice (data j) true) := by
  intro h
  simp only [List.mem_map] at h
  obtain ⟨j, -, hj⟩ := h
  cases hj

theorem stop_not_mem_writes (data : Nat → Nat) (idx : List Nat) (acks : List Bool) :
    Call.stop ∉ List.zipWith (fun j a => Call.writeDevice (data j) a) idx acks := by
  induction idx generalizing acks with
  | nil => simp
  | cons j t ih =>
    cases acks with
    | nil => simp
    | cons a as =>
      intro h
      rw [List.zipWith_cons_cons] at h
      rcases List.mem_cons.mp h with h | h
      · cases h
      · exact ih as h

theorem count_stop_body (body : List Call) (hb : Call.stop ∉ body) (c : Call)
    (hc : c ≠ Call.stop) (sendStop : Bool) :
    (c :: (body ++ if sendStop then [Call.stop] else [])).count Call.stop =
      if sendStop then 1 else 0 := by
  have h0 := List.count_eq_zero.mpr hb
  have hc' : (c == Call.stop) = false := by simpa using hc
  cases sendStop <;> simp [List.count_cons, List.count_append, h0, hc']

/-- Claim C21 (the `sendStop` flag). `count` is an 8-bit value. `writeBytes` and
`readBytes` return on every backend; `stop` occurs in the trace exactly once when `start`
succeeded and `sendStop` is true, and then it is the last call; it does not occur when
`sendStop` is false or when `start` failed, whatever the data bytes' acknowledge bits. -/
theorem sendStop_flag (B : TwiMasterBase σ) (s : σ) (device : Nat) (data : Nat → Nat)
    (count : Nat) (sendStop : Bool) (hcount : count ≤ 255) :
    (∃ res : Bool × σ × List Call,
      writeBytes (traced B) device data count sendStop (s, []) = some res ∧
      res.2.2.count Call.stop =
        (if (B.start device .TwiDirWrite s).1 = true ∧ sendStop = true then 1 else 0) ∧
      ((B.start device .TwiDirWrite s).1 = true → sendStop = true →
        res.2.2.getLast? = some Call.stop)) ∧
    (∃ res : Bool × (Nat → Nat) × σ × List Call,
      readBytes (traced B) device data count sendStop (s, []) = some res ∧
      res.2.2.2.count Call.stop =
        (if (B.start device .TwiDirRead s).1 = true ∧ sendStop = true then 1 else 0) ∧
      ((B.start device .TwiDirRead s).1 = true → sendStop = true →
        res.2.2.2.getLast? = some Call.stop)) := by
  constructor
  · cases hstart : (B.start device .TwiDirWrite s).1
    · exact ⟨(false, (B.start device .TwiDirWrite s).2,
        [Call.start device .TwiDirWrite false]),
        by simp [writeBytes, traced_start, hstart], by simp, by simp⟩
    · obtain ⟨m, last, s1, -, -, hrun⟩ :=
        writeBytes_traced B s device data count sendStop hcount hstart
      refine ⟨_, hrun, ?_, ?_⟩
      · have hb : Call.stop ∉ (List.range' 0 m).map (fun j => Call.writeDevice (data j) true) ++
            [Call.writeDevice (data m) last] := by
          intro h
          rcases List.mem_append.mp h with h | h
          · exact stop_not_mem_acked_writes data _ h
          · simp at h
        show List.count Call.stop (Call.start device .TwiDirWrite true ::
          (_ ++ if sendStop then [Call.stop] else [])) = _
        rw [count_stop_body _ hb _ (by simp)]
        cases sendStop <;> simp
      · intro _ hs
        subst hs
        simp only [if_true]
        rw [← List.cons_append, List.getLast?_append]
        rfl
  · cases hstart : (B.start device .TwiDirRead s).1
    · exact ⟨(false, data, (B.start device .TwiDirRead s).2,
        [Call.start device .TwiDirRead false]),
        by simp [readBytes, traced_start, hstart], by simp, by simp⟩
    · obtain ⟨bytes, data1, s1, -, hrun, -, -⟩ :=
        readBytes_traced B s device data count sendStop hcount hstart
      refine ⟨_, hrun, ?_, ?_⟩
      · show List.count Call.stop (Call.start device .TwiDirRead true ::
          (_ ++ if sendStop then [Call.stop] else [])) = _
        rw [count_stop_body _ (stop_not_mem_reads bytes _) _ (by simp)]
        cases sendStop <;> simp
      · intro _ hs
        subst hs
        simp only [if_true]
        rw [← List.cons_append, List.getLast?_append]
        rfl

/-- Witness for C21: three bytes, `sendStop = false`, to a device that acknowledges its
address and the first byte but not the second: no `stop` in the trace. -/
theorem sendStop_flag_witness :
    writeBytes (traced (simBackend nakData)) 0x50 (fun i => 10 + i) 3 false (⟨0, 0⟩, []) =
        some (true, ⟨2, 0⟩, [Call.start 0x50 .TwiDirWrite true, Call.writeDevice 10 true,
          Call.writeDevice 11 false]) ∧
      ∃ res : Bool × (Nat → Nat) × SimState × List Call,
        readBytes (traced (simBackend nakData)) 0x50 (fun i => 10 + i) 3 true (⟨0, 0⟩, []) =
          some res ∧
        res.2.2.2.count Call.stop =
          (if ((simBackend nakData).start 0x50 .TwiDirRead ⟨0, 0⟩).1 = true ∧ true = true
            then 1 else 0) ∧
        (((simBackend nakData).start 0x50 .TwiDirRead ⟨0, 0⟩).1 = true → true = true →
          res.2.2.2.getLast? = some Call.stop) :=
  ⟨by decide, (sendStop_flag (simBackend nakData) ⟨0, 0⟩ 0x50 (fun i => 10 + i) 3 true
    (by decide)).2⟩

/-- Claim C22 (multi-byte `writeRegister`, aggregate result). `count` is an 8-bit value.
When `start` and the write of the register address are acknowledged, on every backend:
after these two calls all `count` data bytes `data[0], ..., data[count-1]` are written in
index order, whatever their acknowledge bits `acks`; `stop` follows and occurs exactly
once; the result is true if and only if every data byte was acknowledged, hence true for
`count = 0`. -/
theorem writeRegisterMulti_aggregate (B : TwiMasterBase σ) (s : σ) (device address : Nat)
    (data : Nat → Nat) (count : Nat) (hcount : count ≤ 255)
    (hstart : (B.start device .TwiDirWrite s).1 = true)
    (haddr : (B.writeDevice address (B.start device .TwiDirWrite s).2).1 = true) :
    ∃ (acks : List Bool) (res : Bool × σ × List Call),
      acks.length = count ∧
      writeRegisterMulti (traced B) device address data count (s, []) = some res ∧
      res.2.2 = [Call.start device .TwiDirWrite true, Call.writeDevice address true] ++
        List.zipWith (fun j a => Call.writeDevice (data j) a) (List.range' 0 count) acks ++
        [Call.stop] ∧
      res.2.2.count Call.stop = 1 ∧
      (res.1 = true ↔ ∀ a ∈ acks, a = true) ∧
      (count = 0 → res.1 = true) := by
  obtain ⟨acks, s1, hlen, hrun⟩ :=
    writeRegisterMulti_traced B s device address data count hcount hstart haddr
  refine ⟨acks, _, hlen, hrun, rfl, ?_, ?_, ?_⟩
  · have h0 := List.count_eq_zero.mpr (stop_not_mem_writes data (List.range' 0 count) acks)
    show List.count Call.stop ([Call.start device .TwiDirWrite true,
      Call.writeDevice address true] ++ _ ++ [Call.stop]) = 1
    rw [List.count_append, List.count_append, h0]
    rfl
  · show acks.all id = true ↔ _
    simp [List.all_eq_true]
  · intro h0
    subst h0
    have : acks = [] := List.length_eq_zero.mp hlen
    subst this
    rfl

/-- Witness for C22: two data bytes to a device that acknowledges its address, the
register address and the second data byte, but not the first data byte. -/
theorem writeRegisterMulti_aggregate_witness :
    writeRegisterMulti (traced (simBackend nakSecond)) 0x50 7 (fun i => 10 + i) 2
        (⟨0, 0⟩, []) =
      some (false, ⟨3, 0⟩, [Call.start 0x50 .TwiDirWrite true, Call.writeDevice 7 true,
        Call.writeDevice 10 false, Call.writeDevice 11 true, Call.stop]) ∧
    ∃ (acks : List Bool) (res : Bool × SimState × List Call),
      acks.length = 2 ∧
      writeRegisterMulti (traced (simBackend nakSecond)) 0x50 7 (fun i => 10 + i) 2
        (⟨0, 0⟩, []) = some res ∧
      res.2.2 = [Call.start 0x50 .TwiDirWrite true, Call.writeDevice 7 true] ++
        List.zipWith (fun j a => Call.writeDevice ((fun i => 10 + i) j) a)
          (List.range' 0 2) acks ++ [Call.stop] ∧
      res.2.2.count Call.stop = 1 ∧
      (res.1 = true ↔ ∀ a ∈ acks, a = true) ∧
      (2 = 0 → res.1 = true) :=
  ⟨by decide, writeRegisterMulti_aggregate (simBackend nakSecond) ⟨0, 0⟩ 0x50 7
    (fun i => 10 + i) 2 (by decide) rfl rfl⟩

/-- Claim C23 (multi-byte `readRegister`). For `1 ≤ count ≤ 255`, when
`start(device, Write)`, `writeDevice(regAddr)` and `repeatStart(device, Read)` all
succeed, on every backend: the result is true; the rest of the trace is `count - 1` calls
of `readDeviceWithAck`, one `readDeviceWithNak`, then `stop`; the `i`-th byte read is
stored in `data[i]`; the buffer is untouched from index `count` on. -/
theorem readRegisterMulti_reads (B : TwiMasterBase σ) (s : σ) (device address : Nat)
    (data : Nat → Nat) (count : Nat) (h1 : 1 ≤ count) (h255 : count ≤ 255)
    (hstart : (B.start device .TwiDirWrite s).1 = true)
    (haddr : (B.writeDevice address (B.start device .TwiDirWrite s).2).1 = true)
    (hrep : (B.repeatStart device .TwiDirRead
      (B.writeDevice address (B.start device .TwiDirWrite s).2).2).1 = true) :
    ∃ (bytes : List Nat) (data1 : Nat → Nat) (s1 : σ),
      bytes.length = count ∧
      ((bytes.take (count - 1)).length = count - 1 ∧ (bytes.drop (count - 1)).length = 1) ∧
      readRegisterMulti (traced B) device address data count (s, []) =
        some (true, data1, s1,
          [Call.start device .TwiDirWrite true, Call.writeDevice address true,
            Call.repeatStart device .TwiDirRead true] ++
            ((bytes.take (count - 1)).map Call.readDeviceWithAck ++
              (bytes.drop (count - 1)).map Call.readDeviceWithNak) ++ [Call.stop]) ∧
      (∀ i, i < count → bytes[i]? = some (data1 i)) ∧
      (∀ k, count ≤ k → data1 k = data k) := by
  have hit : iters count = count := by
    unfold iters
    rw [if_neg (by omega)]
  obtain ⟨bytes, data1, s1, hlen, hrun, hmem, hframe⟩ :=
    readRegisterMulti_traced B s device address data count h255 hstart haddr hrep
  rw [hit] at hlen hrun hmem hframe
  refine ⟨bytes, data1, s1, hlen, ?_, hrun, hmem, hframe⟩
  simp only [List.length_take, List.length_drop, hlen]
  omega

/-- Witness for C23: three bytes from register `0x10` of a device that acknowledges
everything. -/
theorem readRegisterMulti_reads_witness :
    ∃ (bytes : List Nat) (data1 : Nat → Nat) (s1 : SimState),
      bytes.length = 3 ∧
      ((bytes.take (3 - 1)).length = 3 - 1 ∧ (bytes.drop (3 - 1)).length = 1) ∧
      readRegisterMulti (traced (simBackend ackAll)) 0x50 0x10 (fun _ => 0) 3 (⟨0, 0⟩, []) =
        some (true, data1, s1,
          [Call.start 0x50 .TwiDirWrite true, Call.writeDevice 0x10 true,
            Call.repeatStart 0x50 .TwiDirRead true] ++
            ((bytes.take (3 - 1)).map Call.readDeviceWithAck ++
              (bytes.drop (3 - 1)).map Call.readDeviceWithNak) ++ [Call.stop]) ∧
      (∀ i, i < 3 → bytes[i]? = some (data1 i)) ∧
      (∀ k, 3 ≤ k → data1 k = (fun _ => 0) k) :=
  readRegisterMulti_reads (simBackend ackAll) ⟨0, 0⟩ 0x50 0x10 (fun _ => 0) 3
    (by decide) (by decide) rfl rfl rfl

/-- Claim C24 (single-byte `readRegister`, result and output). For every backend and all
arguments, `readRegister(device, regAddr, &out)` returns true if and only if `start`,
`writeDevice(regAddr)` and `repeatStart` all succeed; when it returns true, `out` holds
the byte that `readDeviceWithNak` returned; when it returns false, `out` is as before. -/
theorem readRegister_result (B : TwiMasterBase σ) (s : σ) (device address cell : Nat) :
    let r1 := B.start device .TwiDirWrite s
    let r2 := B.writeDevice address r1.2
    let r3 := B.repeatStart device .TwiDirRead r2.2
    let r4 := B.readDeviceWithNak r3.2
    ((readRegister B device address cell s).1 = true ↔
        r1.1 = true ∧ r2.1 = true ∧ r3.1 = true) ∧
      ((readRegister B device address cell s).1 = true →
        (readRegister B device address cell s).2.1 = r4.1) ∧
      ((readRegister B device address cell s).1 = false →
        (readRegister B device address cell s).2.1 = cell) := by
  intro r1 r2 r3 r4
  simp only [readRegister]
  cases h1 : (B.start device twiDir_t.TwiDirWrite s).1 <;>
  cases h2 : (B.writeDevice address (B.start device twiDir_t.TwiDirWrite s).2).1 <;>
  cases h3 : (B.repeatStart device twiDir_t.TwiDirRead
      (B.writeDevice address (B.start device twiDir_t.TwiDirWrite s).2).2).1 <;>
  simp [r1, r2, r3, r4, h1, h2, h3]

theorem readLoop_one (B : TwiMasterBase σ) (fuel i : Nat) (data : Nat → Nat) (s : σ) :
    readLoop B (fuel + 1) 1 i data s =
      some (Function.update data i (B.readDeviceWithNak s).1, (B.readDeviceWithNak s).2) := by
  simp [readLoop, decr8]

/-- Claim C29 (single-byte and multi-byte `readRegister` at `count = 1`). For every
backend, device, register address and buffer: `readRegister(device, addr, buf, 1)`
returns, with the same Boolean, the same sequence of backend calls and the same final
backend state as `readRegister(device, addr, &b)` started with `b = buf[0]`; it leaves in
`buf[0]` the byte the single-byte call leaves in `b` (the old byte when the call fails)
and touches no other index of the buffer. -/
theorem readRegister_agrees_multi (B : TwiMasterBase σ) (s : σ) (device address : Nat)
    (data : Nat → Nat) :
    ∃ data1 : Nat → Nat,
      readRegisterMulti (traced B) device address data 1 (s, []) =
        some ((readRegister (traced B) device address (data 0) (s, [])).1, data1,
          (readRegister (traced B) device address (data 0) (s, [])).2.2) ∧
      data1 0 = (readRegister (traced B) device address (data 0) (s, [])).2.1 ∧
      (∀ k, k ≠ 0 → data1 k = data k) ∧
      ((readRegister (traced B) device address (data 0) (s, [])).1 = false →
        data1 0 = data 0) := by
  simp only [readRegisterMulti, readRegister, show (256 : Nat) = 255 + 1 from rfl,
    readLoop_one]
  cases h1 : ((traced B).start device twiDir_t.TwiDirWrite (s, [])).1
  · exact ⟨data, by simp, by simp, by simp, by simp⟩
  cases h2 : ((traced B).writeDevice address
      ((traced B).start device twiDir_t.TwiDirWrite (s, [])).2).1
  · exact ⟨data, by simp, by simp, by simp, by simp⟩
  cases h3 : ((traced B).repeatStart device twiDir_t.TwiDirRead
      ((traced B).writeDevice address
        ((traced B).start device twiDir_t.TwiDirWrite (s, [])).2).2).1
  · exact ⟨data, by simp, by simp, by simp, by simp⟩
  · refine ⟨Function.update data 0 ((traced B).readDeviceWithNak
        ((traced B).repeatStart device twiDir_t.TwiDirRead
          ((traced B).writeDevice address
            ((traced B).start device twiDir_t.TwiDirWrite (s, [])).2).2).2).1,
      by simp, by simp, ?_, by simp⟩
    intro k hk
    simp [Function.update, hk]

theorem writeBytesLoop_all_acked (B : TwiMasterBase σ) (data : Nat → Nat)
    (hack : ∀ (b : Nat) (t : σ), (B.writeDevice b t).1 = true) :
    ∀ (fuel count i : Nat) (s : σ) (log : List Call),
      count < 256 → iters count ≤ fuel →
      ∃ s1 : σ,
        writeBytesLoop (traced B) data fuel count i (s, log) =
          some (s1, log ++
            (List.range' i (iters count)).map (fun j => Call.writeDevice (data j) true)) := by
  intro fuel
  induction fuel with
  | zero =>
    intro count i s log _ hf
    have := iters_pos count
    omega
  | succ n ih =>
    intro count i s log hc hf
    have hack1 := hack (data i) s
    by_cases h1 : count = 1
    · subst h1
      exact ⟨(B.writeDevice (data i) s).2,
        by simp [writeBytesLoop, traced_writeDevice, hack1, decr8, iters]⟩
    · obtain ⟨hne, hit⟩ := iters_decr8 count hc h1
      obtain ⟨s1, hrun⟩ :=
        ih (decr8 count) (i + 1) (B.writeDevice (data i) s).2
          (log ++ [Call.writeDevice (data i) true]) (decr8_lt count) (by omega)
      refine ⟨s1, ?_⟩
      simp only [writeBytesLoop, traced_writeDevice, hack1, if_pos hne]
      simp only [Bool.true_eq_false, if_false]
      rw [hrun, ← hit, List.range'_succ]
      simp

/-- Claim C28 (a zero `count` wraps in the `do ... while` loops). With `count = 0`, once
the addressing phase has succeeded, on every backend: `readBytes` and the multi-byte
`readRegister` perform 256 reads, 255 with `readDeviceWithAck` and then one with
`readDeviceWithNak`, and store the `j`-th byte in `data[j]` for `j < 256`; `writeBytes`
against a backend that acknowledges every byte performs the 256 writes
`data[0], ..., data[255]`. None of them performs zero transfers. -/
theorem zero_count_wraps (B : TwiMasterBase σ) (s : σ) (device address : Nat)
    (data : Nat → Nat) (sendStop : Bool) :
    ((B.start device .TwiDirRead s).1 = true →
      ∃ (bytes : List Nat) (data1 : Nat → Nat) (s1 : σ),
        bytes.length = 256 ∧
        readBytes (traced B) device data 0 sendStop (s, []) =
          some (true, data1, s1, Call.start device .TwiDirRead true ::
            ((bytes.take 255).map Call.readDeviceWithAck ++
              (bytes.drop 255).map Call.readDeviceWithNak ++
              if sendStop then [Call.stop] else [])) ∧
        (∀ j, j < 256 → bytes[j]? = some (data1 j))) ∧
    ((B.start device .TwiDirWrite s).1 = true →
      (B.writeDevice address (B.start device .TwiDirWrite s).2).1 = true →
      (B.repeatStart device .TwiDirRead
        (B.writeDevice address (B.start device .TwiDirWrite s).2).2).1 = true →
      ∃ (bytes : List Nat) (data1 : Nat → Nat) (s1 : σ),
        bytes.length = 256 ∧
        readRegisterMulti (traced B) device address data 0 (s, []) =
          some (true, data1, s1,
            [Call.start device .TwiDirWrite true, Call.writeDevice address true,
              Call.repeatStart device .TwiDirRead true] ++
              ((bytes.take 255).map Call.readDeviceWithAck ++
                (bytes.drop 255).map Call.readDeviceWithNak) ++ [Call.stop]) ∧
        (∀ j, j < 256 → bytes[j]? = some (data1 j))) ∧
    ((∀ (b : Nat) (t : σ), (B.writeDevice b t).1 = true) →
      (B.start device .TwiDirWrite s).1 = true →
      ∃ s1 : σ,
        writeBytes (traced B) device data 0 sendStop (s, []) =
          some (true, s1, Call.start device .TwiDirWrite true ::
            ((List.range' 0 256).map (fun j => Call.writeDevice (data j) true) ++
              if sendStop then [Call.stop] else []))) := by
  have hit : iters 0 = 256 := rfl
  refine ⟨?_, ?_, ?_⟩
  · intro hstart
    obtain ⟨bytes, data1, s1, hlen, hrun, hmem, -⟩ :=
      readBytes_traced B s device data 0 sendStop (by omega) hstart
    rw [hit] at hlen hrun hmem
    exact ⟨bytes, data1, s1, hlen, hrun, hmem⟩
  · intro hstart haddr hrep
    obtain ⟨bytes, data1, s1, hlen, hrun, hmem, -⟩ :=
      readRegisterMulti_traced B s device address data 0 (by omega) hstart haddr hrep
    rw [hit] at hlen hrun hmem
    exact ⟨bytes, data1, s1, hlen, hrun, hmem⟩
  · intro hack hstart
    obtain ⟨s1, hrun⟩ :=
      writeBytesLoop_all_acked B data hack 256 0 0 (B.start device .TwiDirWrite s).2
        [Call.start device .TwiDirWrite true] (by omega) (by rw [hit])
    rw [hit] at hrun
    refine ⟨if sendStop then B.stop s1 else s1, ?_⟩
    simp only [writeBytes, traced_start, hstart, if_true, List.nil_append, hrun]
    cases sendStop <;> simp [traced_stop]

set_option maxRecDepth 100000 in
/-- Witness for C28: `count = 0` against a device that acknowledges everything; each
trace has 258 calls (`start`, 256 transfers, `stop`). -/
theorem zero_count_wraps_witness :
    (readBytes (traced (simBackend ackAll)) 0x50 (fun _ => 0) 0 true (⟨0, 0⟩, [])).map
        (fun r => (r.1, r.2.2.2.length, r.2.1 0, r.2.1 255, r.2.1 256)) =
      some (true, 258, 0, 255, 0) ∧
    (writeBytes (traced (simBackend ackAll)) 0x50 (fun _ => 0) 0 true (⟨0, 0⟩, [])).map
        (fun r => (r.1, r.2.2.length, r.2.1.nWritten)) = some (true, 258, 256) ∧
    ∃ s1 : SimState,
      writeBytes (traced (simBackend ackAll)) 0x50 (fun _ => 0) 0 true (⟨0, 0⟩, []) =
        some (true, s1, Call.start 0x50 .TwiDirWrite true ::
          ((List.range' 0 256).map (fun j => Call.writeDevice ((fun _ => 0) j) true) ++
            if true = true then [Call.stop] else [])) :=
  ⟨by decide, by decide,
    (zero_count_wraps (simBackend ackAll) ⟨0, 0⟩ 0x50 0 (fun _ => 0) true).2.2
      (fun _ _ => rfl) rfl⟩

end AvrTwi

namespace AvrTwi

variable {η : Type}

/-! ## The acknowledgement checks of the hardware `start` -/

theorem loggedRW_write (H : TwiPeripheral η) (reg : Reg) (v : Nat) (s : η × List RegEvent) :
    (loggedRW H).write reg v s = (H.write reg v s.1, s.2 ++ [RegEvent.write reg v]) := rfl

theorem loggedRW_read (H : TwiPeripheral η) (reg : Reg) (s : η × List RegEvent) :
    (loggedRW H).read reg s =
      ((H.read reg s.1).1, (H.read reg s.1).2, s.2 ++ [RegEvent.read reg (H.read reg s.1).1]) :=
  rfl

theorem statusReads_append (l1 l2 : List RegEvent) :
    statusReads (l1 ++ l2) = statusReads l1 ++ statusReads l2 := by
  induction l1 with
  | nil => rfl
  | cons e t ih =>
    cases e with
    | write reg v => simp [statusReads, ih]
    | read reg v => cases reg <;> simp [statusReads, ih]

theorem dataWrites_append (l1 l2 : List RegEvent) :
    dataWrites (l1 ++ l2) = dataWrites l1 ++ dataWrites l2 := by
  induction l1 with
  | nil => rfl
  | cons e t ih =>
    cases e with
    | read reg v => simp [dataWrites, ih]
    | write reg v => cases reg <;> simp [dataWrites, ih]

/-- Polling `TWCR` reads no status and writes no data. -/
theorem waitTransComplete_loggedRW (H : TwiPeripheral η) :
    ∀ (fuel : Nat) (h : η) (log : List RegEvent) (res : η × List RegEvent),
      TwiMaster.waitTransComplete (loggedRW H) fuel (h, log) = some res →
      statusReads res.2 = statusReads log ∧ dataWrites res.2 = dataWrites log := by
  intro fuel
  induction fuel with
  | zero => intro h log res hrun; simp [TwiMaster.waitTransComplete] at hrun
  | succ n ih =>
    intro h log res hrun
    simp only [TwiMaster.waitTransComplete, loggedRW_read] at hrun
    split at hrun
    · have := ih _ _ _ hrun
      simpa [statusReads_append, dataWrites_append, statusReads, dataWrites] using this
    · simp only [Option.some.injEq] at hrun
      subst hrun
      simp [statusReads_append, dataWrites_append, statusReads, dataWrites]

/-- The acknowledgement checks on any run of `start` that has a result: either exactly
one status was read, it is neither `TW_START` nor `TW_REP_START`, nothing was written to
`TWDR`, and the result is false; or exactly two statuses were read, the first is
`TW_START` or `TW_REP_START`, the address byte was written to `TWDR`, and the result is
true exactly when the second is `TW_MT_SLA_ACK` or `TW_MR_SLA_ACK`. -/
theorem start_checks_of_result (H : TwiPeripheral η) (fuel device : Nat) (read : twiDir_t)
    (h : η) (res : Bool × η × List RegEvent)
    (hrun : TwiMaster.start (loggedRW H) fuel device read (h, []) = some res) :
    (∃ st1 : Nat, statusReads res.2.2 = [st1] ∧ startConfirmed st1 = false ∧
        dataWrites res.2.2 = [] ∧ res.1 = false) ∨
      (∃ st1 st2 : Nat, statusReads res.2.2 = [st1, st2] ∧ startConfirmed st1 = true ∧
        dataWrites res.2.2 = [TwiMaster.slarw device read] ∧ res.1 = addressAcked st2) := by
  simp only [TwiMaster.start, TwiMaster.TW_STATUS, loggedRW_write, loggedRW_read,
    List.nil_append] at hrun
  cases hw1 : TwiMaster.waitTransComplete (loggedRW H) fuel
      (H.write Reg.TWCR (_BV TWINT ||| _BV TWSTA ||| _BV TWEN) h,
        [RegEvent.write Reg.TWCR (_BV TWINT ||| _BV TWSTA ||| _BV TWEN)]) with
  | none => simp [hw1] at hrun
  | some r1 =>
    obtain ⟨hs1, hd1⟩ := waitTransComplete_loggedRW H _ _ _ _ hw1
    simp only [hw1] at hrun
    split at hrun
    · rename_i hfail
      simp only [Option.some.injEq] at hrun
      subst hrun
      left
      refine ⟨(H.read Reg.TWSR r1.1).1, ?_, ?_, ?_, rfl⟩
      · simp [statusReads_append, hs1, statusReads]
      · simp only [startConfirmed, decide_eq_false_iff_not]
        tauto
      · simp [dataWrites_append, hd1, dataWrites]
    · rename_i hok
      simp only [List.append_assoc, List.singleton_append, List.cons_append,
        List.nil_append] at hrun
      cases hw2 : TwiMaster.waitTransComplete (loggedRW H) fuel
          (H.write Reg.TWCR (_BV TWINT ||| _BV TWEN ||| _BV TWEA)
            (H.write Reg.TWDR (TwiMaster.slarw device read) (H.read Reg.TWSR r1.1).2),
            r1.2 ++ [RegEvent.read Reg.TWSR (H.read Reg.TWSR r1.1).1,
              RegEvent.write Reg.TWDR (TwiMaster.slarw device read),
              RegEvent.write Reg.TWCR (_BV TWINT ||| _BV TWEN ||| _BV TWEA)]) with
      | none => simp [hw2] at hrun
      | some r2 =>
        obtain ⟨hs2, hd2⟩ := waitTransComplete_loggedRW H _ _ _ _ hw2
        rw [hw2] at hrun
        simp only [] at hrun
        right
        refine ⟨(H.read Reg.TWSR r1.1).1, (H.read Reg.TWSR r2.1).1, ?_, ?_, ?_, ?_⟩
        · split at hrun <;>
          · simp only [Option.some.injEq] at hrun
            subst hrun
            simp [statusReads_append, hs2, hs1, statusReads]
        · simp only [startConfirmed, decide_eq_true_eq]
          tauto
        · split at hrun <;>
          · simp only [Option.some.injEq] at hrun
            subst hrun
            simp [dataWrites_append, hd2, hd1, dataWrites]
        · split at hrun
          · rename_i hnak
            simp only [Option.some.injEq] at hrun
            subst hrun
            symm
            simp only [addressAcked, decide_eq_false_iff_not]
            tauto
          · rename_i hack
            simp only [Option.some.injEq] at hrun
            subst hrun
            symm
            simp only [addressAcked, decide_eq_true_eq]
            tauto

/-- Logging changes neither whether a poll of `TWCR` completes nor the hardware state it
completes in. -/
theorem waitTransComplete_loggedRW_some (H : TwiPeripheral η) :
    ∀ (fuel : Nat) (h : η) (log : List RegEvent) (h2 : η),
      TwiMaster.waitTransComplete H fuel h = some h2 →
      ∃ log2, TwiMaster.waitTransComplete (loggedRW H) fuel (h, log) = some (h2, log2) := by
  intro fuel
  induction fuel with
  | zero => intro h log h2 hrun; simp [TwiMaster.waitTransComplete] at hrun
  | succ n ih =>
    intro h log h2 hrun
    simp only [TwiMaster.waitTransComplete] at hrun
    simp only [TwiMaster.waitTransComplete, loggedRW_read]
    split at hrun
    · rename_i hz
      rw [if_pos hz]
      exact ih _ _ _ hrun
    · rename_i hz
      rw [if_neg hz]
      simp only [Option.some.injEq] at hrun
      subst hrun
      exact ⟨_, rfl⟩

/-- A run of `start` has a result once the polls it makes complete: the poll after the
start condition and, when the first check passes, the poll after the address byte. -/
theorem start_loggedRW_returns (H : TwiPeripheral η) (fuel device : Nat) (read : twiDir_t)
    (h h2 : η)
    (hw1 : TwiMaster.waitTransComplete H fuel
      (H.write .TWCR (_BV TWINT ||| _BV TWSTA ||| _BV TWEN) h) = some h2)
    (hw2 : startConfirmed (H.read .TWSR h2).1 = true →
      (TwiMaster.waitTransComplete H fuel
        (H.write .TWCR (_BV TWINT ||| _BV TWEN ||| _BV TWEA)
          (H.write .TWDR (TwiMaster.slarw device read) (H.read .TWSR h2).2))).isSome = true) :
    ∃ res, TwiMaster.start (loggedRW H) fuel device read (h, []) = some res := by
  obtain ⟨log2, hl1⟩ := waitTransComplete_loggedRW_some H fuel _
    [RegEvent.write .TWCR (_BV TWINT ||| _BV TWSTA ||| _BV TWEN)] h2 hw1
  simp only [TwiMaster.start, TwiMaster.TW_STATUS, loggedRW_write, loggedRW_read,
    List.nil_append, hl1]
  split
  · exact ⟨_, rfl⟩
  · rename_i hok
    have hc : startConfirmed (H.read .TWSR h2).1 = true := by
      simp only [startConfirmed, decide_eq_true_eq]
      tauto
    obtain ⟨h5, hh5⟩ := Option.isSome_iff_exists.mp (hw2 hc)
    obtain ⟨log3, hl2⟩ := waitTransComplete_loggedRW_some H fuel _
      (log2 ++ [RegEvent.read Reg.TWSR (H.read Reg.TWSR h2).1] ++
        [RegEvent.write Reg.TWDR (TwiMaster.slarw device read)] ++
        [RegEvent.write Reg.TWCR (_BV TWINT ||| _BV TWEN ||| _BV TWEA)]) h5 hh5
    rw [hl2]
    simp only []
    split <;> exact ⟨_, rfl⟩

/-- Claim C25 (the acknowledgement checks of `TwiMaster::start`). For every peripheral,
poll bound, device and direction: once the polls of `TWCR` complete (the poll after the
start condition and, when the first check passes, the poll after the address byte),
`start` returns, and either exactly one status was read, it is neither `TW_START` nor
`TW_REP_START`, nothing was written to `TWDR`, and the result is false; or exactly two
statuses were read, the first is `TW_START` or `TW_REP_START`, the address byte was
written to `TWDR`, and the result is true exactly when the second is `TW_MT_SLA_ACK` or
`TW_MR_SLA_ACK`. Hence `start` returns true if and only if both checks pass. -/
theorem start_ack_checks (H : TwiPeripheral η) (fuel device : Nat) (read : twiDir_t)
    (h h2 : η)
    (hw1 : TwiMaster.waitTransComplete H fuel
      (H.write .TWCR (_BV TWINT ||| _BV TWSTA ||| _BV TWEN) h) = some h2)
    (hw2 : startConfirmed (H.read .TWSR h2).1 = true →
      (TwiMaster.waitTransComplete H fuel
        (H.write .TWCR (_BV TWINT ||| _BV TWEN ||| _BV TWEA)
          (H.write .TWDR (TwiMaster.slarw device read) (H.read .TWSR h2).2))).isSome = true) :
    ∃ res : Bool × η × List RegEvent,
      TwiMaster.start (loggedRW H) fuel device read (h, []) = some res ∧
      ((∃ st1 : Nat, statusReads res.2.2 = [st1] ∧ startConfirmed st1 = false ∧
          dataWrites res.2.2 = [] ∧ res.1 = false) ∨
        (∃ st1 st2 : Nat, statusReads res.2.2 = [st1, st2] ∧ startConfirmed st1 = true ∧
          dataWrites res.2.2 = [TwiMaster.slarw device read] ∧ res.1 = addressAcked st2)) := by
  obtain ⟨res, hres⟩ := start_loggedRW_returns H fuel device read h h2 hw1 hw2
  exact ⟨res, hres, start_checks_of_result H fuel device read h res hres⟩

/-- Witness for C25: the simulated peripheral sets `TWINT` on the second poll and reports
`TW_START` and then a status that is no address acknowledge (`0x20`, SLA+W transmitted,
NACK received). Both polls complete within four reads of `TWCR`; `start` loads the
address byte, reads both statuses and returns false. -/
theorem start_ack_checks_witness :
    TwiMaster.waitTransComplete simTwi 4
        (simTwi.write .TWCR (_BV TWINT ||| _BV TWSTA ||| _BV TWEN) (false, [TW_START, 0x20])) =
        some (true, [TW_START, 0x20]) ∧
      (startConfirmed (simTwi.read .TWSR (true, [TW_START, 0x20])).1 = true →
        (TwiMaster.waitTransComplete simTwi 4
          (simTwi.write .TWCR (_BV TWINT ||| _BV TWEN ||| _BV TWEA)
            (simTwi.write .TWDR (TwiMaster.slarw 0x50 .TwiDirWrite)
              (simTwi.read .TWSR (true, [TW_START, 0x20])).2))).isSome = true) ∧
      TwiMaster.start (loggedRW simTwi) 4 0x50 .TwiDirWrite ((false, [TW_START, 0x20]), []) =
        some (false, (true, []),
          [RegEvent.write .TWCR 0xA4, RegEvent.read .TWCR 0x04, RegEvent.read .TWCR 0x84,
            RegEvent.read .TWSR 0x08, RegEvent.write .TWDR 0xA0, RegEvent.write .TWCR 0xC4,
            RegEvent.read .TWCR 0x04, RegEvent.read .TWCR 0x84, RegEvent.read .TWSR 0x20]) ∧
      ∃ res : Bool × (Bool × List Nat) × List RegEvent,
        TwiMaster.start (loggedRW simTwi) 4 0x50 .TwiDirWrite ((false, [TW_START, 0x20]), []) =
          some res ∧
        ((∃ st1 : Nat, statusReads res.2.2 = [st1] ∧ startConfirmed st1 = false ∧
            dataWrites res.2.2 = [] ∧ res.1 = false) ∨
          (∃ st1 st2 : Nat, statusReads res.2.2 = [st1, st2] ∧ startConfirmed st1 = true ∧
            dataWrites res.2.2 = [TwiMaster.slarw 0x50 .TwiDirWrite] ∧
            res.1 = addressAcked st2)) :=
  ⟨by decide, fun _ => by decide, by decide,
    start_ack_checks simTwi 4 0x50 .TwiDirWrite (false, [TW_START, 0x20])
      (true, [TW_START, 0x20]) (by decide) (fun _ => by decide)⟩

end AvrTwi

/-! # Fifth part: the remaining register wrappers -/

namespace AvrCore

/-! ## Bits of the 8-bit register operations -/

theorem testBit_cNot (x i : Nat) :
    (cNot x).testBit i = Bool.xor (decide (i < 16)) (x.testBit i) := by
  have h : (0xFFFF : Nat) = 2 ^ 16 - 1 := by norm_num
  unfold cNot
  rw [Nat.testBit_xor, h, Nat.testBit_two_pow_sub_one]

theorem testBit_andAssign8 (reg v i : Nat) :
    (andAssign8 reg v).testBit i = (decide (i < 8) && (reg.testBit i && v.testBit i)) := by
  have h : (256 : Nat) = 2 ^ 8 := by norm_num
  unfold andAssign8
  rw [h, Nat.testBit_mod_two_pow, Nat.testBit_and]

theorem testBit_orAssign8 (reg v i : Nat) :
    (orAssign8 reg v).testBit i = (decide (i < 8) && (reg.testBit i || v.testBit i)) := by
  have h : (256 : Nat) = 2 ^ 8 := by norm_num
  unfold orAssign8
  rw [h, Nat.testBit_mod_two_pow, Nat.testBit_or]

theorem testBit_of_lt_256 (x i : Nat) (hx : x < 256) (hi : 8 ≤ i) : x.testBit i = false := by
  apply Nat.testBit_lt_two_pow
  calc x < 2 ^ 8 := by norm_num; exact hx
    _ ≤ 2 ^ i := Nat.pow_le_pow_right (by norm_num) hi

theorem testBit_three (i : Nat) : (3 : Nat).testBit i = decide (i < 2) := by
  have h : (3 : Nat) = 2 ^ 2 - 1 := by norm_num
  rw [h, Nat.testBit_two_pow_sub_one]

theorem testBit_sense (sense : extIntSense_t) (i : Nat) (hi : 2 ≤ i) :
    sense.toNat.testBit i = false := by
  apply Nat.testBit_lt_two_pow
  calc sense.toNat < 2 ^ 2 := by cases sense <;> simp [extIntSense_t.toNat]
    _ ≤ 2 ^ i := Nat.pow_le_pow_right (by norm_num) hi

/-- Bit `i` of the control register after `setSense`. -/
theorem testBit_setSense (bit1x : Nat) (sense : extIntSense_t) (ctl i : Nat)
    (hctl : ctl < 256) (hbit : bit1x ≤ 6) :
    (ExtInterrupt.setSense bit1x sense ctl).testBit i =
      if bit1x ≤ i ∧ i < bit1x + 2 then sense.toNat.testBit (i - bit1x) else ctl.testBit i := by
  unfold ExtInterrupt.setSense
  rw [testBit_orAssign8, testBit_andAssign8, testBit_cNot, Nat.testBit_shiftLeft,
    Nat.testBit_shiftLeft, testBit_three]
  by_cases h8 : i < 8
  · by_cases hlo : bit1x ≤ i
    · by_cases hhi : i < bit1x + 2
      · have h2 : i - bit1x < 2 := by omega
        have h16 : i < 16 := by omega
        simp [h8, hlo, hhi, h2, h16]
      · have h2 : ¬ (i - bit1x < 2) := by omega
        have h16 : i < 16 := by omega
        have hs := testBit_sense sense (i - bit1x) (by omega)
        simp [h8, hlo, hhi, h2, h16, hs]
    · have h16 : i < 16 := by omega
      simp [h8, hlo, h16]
  · have hc := testBit_of_lt_256 ctl i hctl (by omega)
    have hhi : ¬ (i < bit1x + 2) := by omega
    simp [h8, hc, hhi]

/-- Claim C27 (external interrupt sense round trip). For every 8-bit content of the
control register, every field position `bit1x` from 0 to 6 and every sense,
`getSense()` after `setSense(s)` returns `s`, and `setSense` leaves every bit outside
the two-bit field at `bit1x` as it was. -/
theorem sense_round_trip (ctl bit1x : Nat) (sense : extIntSense_t)
    (hctl : ctl < 256) (hbit : bit1x ≤ 6) :
    ExtInterrupt.getSense bit1x (ExtInterrupt.setSense bit1x sense ctl) = sense.toNat ∧
      ∀ i, i < bit1x ∨ bit1x + 2 ≤ i →
        (ExtInterrupt.setSense bit1x sense ctl).testBit i = ctl.testBit i := by
  constructor
  · apply Nat.eq_of_testBit_eq
    intro i
    unfold ExtInterrupt.getSense
    rw [Nat.testBit_and, Nat.testBit_shiftRight, testBit_setSense bit1x sense ctl _ hctl hbit,
      testBit_three]
    by_cases h2 : i < 2
    · have h : bit1x ≤ bit1x + i ∧ bit1x + i < bit1x + 2 := by omega
      simp [h2, h]
    · have hs := testBit_sense sense i (by omega)
      simp [h2, hs]
  · intro i hi
    rw [testBit_setSense bit1x sense ctl i hctl hbit]
    have h : ¬ (bit1x ≤ i ∧ i < bit1x + 2) := by omega
    rw [if_neg h]

/-- Witness for C27: `EICRA = 0xFF`, the field of `INT3` at bit 6, sense falling edge. -/
theorem sense_round_trip_witness :
    ExtInterrupt.setSense 6 .ExtIntFalling 0xFF = 0xBF ∧
      ExtInterrupt.getSense 6 (ExtInterrupt.setSense 6 .ExtIntFalling 0xFF) =
        extIntSense_t.ExtIntFalling.toNat ∧
      ∀ i, i < 6 ∨ 6 + 2 ≤ i →
        (ExtInterrupt.setSense 6 .ExtIntFalling 0xFF).testBit i = (0xFF : Nat).testBit i :=
  ⟨by decide, sense_round_trip 0xFF 6 .ExtIntFalling (by decide) (by decide)⟩

theorem testBit_fieldMask (startBit numBits i : Nat) :
    (((1 <<< numBits) - 1) <<< startBit).testBit i =
      (decide (startBit ≤ i) && decide (i - startBit < numBits)) := by
  rw [Nat.testBit_shiftLeft, Nat.one_shiftLeft, Nat.testBit_two_pow_sub_one]

theorem testBit_mask (startBit numBits i : Nat) :
    (FastIOOutputPort.mask startBit numBits).testBit i =
      (decide (i < 8) && (decide (startBit ≤ i) && decide (i - startBit < numBits))) := by
  have h : (256 : Nat) = 2 ^ 8 := by norm_num
  unfold FastIOOutputPort.mask
  rw [h, Nat.testBit_mod_two_pow, testBit_fieldMask]

theorem testBit_ff (i : Nat) : (0xFF : Nat).testBit i = decide (i < 8) := by
  have h : (0xFF : Nat) = 2 ^ 8 - 1 := by norm_num
  rw [h, Nat.testBit_two_pow_sub_one]

/-- Bit `i` of `PORT` after the `write` of the primary template. -/
theorem testBit_writeField (startBit numBits v p i : Nat)
    (h : startBit + numBits ≤ 8) (hp : p < 256) :
    (FastIOOutputPort.writeField startBit numBits v p).testBit i =
      if startBit ≤ i ∧ i < startBit + numBits then v.testBit (i - startBit)
      else p.testBit i := by
  have h256 : (256 : Nat) = 2 ^ 8 := by norm_num
  simp only [FastIOOutputPort.writeField]
  rw [testBit_andAssign8, testBit_orAssign8, Nat.testBit_or, Nat.testBit_and, testBit_cNot,
    testBit_mask, h256, Nat.testBit_mod_two_pow, Nat.testBit_shiftLeft]
  by_cases h8 : i < 8
  · have h16 : i < 16 := by omega
    by_cases hlo : startBit ≤ i
    · by_cases hhi : i < startBit + numBits
      · have hn : i - startBit < numBits := by omega
        cases hvb : v.testBit (i - startBit) <;> cases hpb : p.testBit i <;>
          simp [h8, h16, hlo, hhi, hn, hvb, hpb]
      · have hn : ¬ (i - startBit < numBits) := by omega
        cases hvb : v.testBit (i - startBit) <;> cases hpb : p.testBit i <;>
          simp [h8, h16, hlo, hhi, hn, hvb, hpb]
    · cases hpb : p.testBit i <;> simp [h8, h16, hlo, hpb]
  · have hc := testBit_of_lt_256 p i hp (by omega)
    have hhi : ¬ (i < startBit + numBits) := by omega
    simp [h8, hc, hhi]

/-- Bit `i` of `PORT` after `write`, for either template. -/
theorem testBit_write (startBit numBits v p i : Nat)
    (h : startBit + numBits ≤ 8) (hp : p < 256) (hv : v < 256) :
    (FastIOOutputPort.write startBit numBits v p).testBit i =
      if startBit ≤ i ∧ i < startBit + numBits then v.testBit (i - startBit)
      else p.testBit i := by
  unfold FastIOOutputPort.write
  by_cases hall : startBit = 0 ∧ numBits = 8
  · obtain ⟨h0, h8⟩ := hall
    subst h0 h8
    simp only [FastIOOutputPort.writeAll, true_and, if_true, Nat.zero_le, Nat.zero_add,
      Nat.sub_zero]
    by_cases hi : i < 8
    · rw [if_pos hi]
    · rw [if_neg hi, testBit_of_lt_256 v i hv (by omega),
        testBit_of_lt_256 p i hp (by omega)]
  · rw [if_neg hall]
    exact testBit_writeField startBit numBits v p i h hp

/-- Claim C26 (FastIOOutputPort bit-field write). For every `startBit` and `numBits` with
`startBit + numBits ≤ 8`, every 8-bit content `p` of `PORT` and every 8-bit value `v`,
`write(v)` leaves `PORT` equal to `(p AND NOT mask) OR ((v << startBit) AND mask)` with
`mask = ((1 << numBits) - 1) << startBit` (NOT taken on 8 bits): bit `i` of the field
holds bit `i - startBit` of `v`, and every bit outside the field is as before. -/
theorem write_bit_field (startBit numBits p v : Nat)
    (h : startBit + numBits ≤ 8) (hp : p < 256) (hv : v < 256) :
    FastIOOutputPort.write startBit numBits v p =
        (p &&& (0xFF ^^^ (((1 <<< numBits) - 1) <<< startBit))) |||
          ((v <<< startBit) &&& (((1 <<< numBits) - 1) <<< startBit)) ∧
      ∀ i, (FastIOOutputPort.write startBit numBits v p).testBit i =
        if startBit ≤ i ∧ i < startBit + numBits then v.testBit (i - startBit)
        else p.testBit i := by
  refine ⟨?_, fun i => testBit_write startBit numBits v p i h hp hv⟩
  apply Nat.eq_of_testBit_eq
  intro i
  rw [testBit_write startBit numBits v p i h hp hv, Nat.testBit_or, Nat.testBit_and,
    Nat.testBit_and, Nat.testBit_xor, testBit_ff, testBit_fieldMask, Nat.testBit_shiftLeft]
  by_cases h8 : i < 8
  · by_cases hlo : startBit ≤ i
    · by_cases hhi : i < startBit + numBits
      · have hn : i - startBit < numBits := by omega
        cases hvb : v.testBit (i - startBit) <;> cases hpb : p.testBit i <;>
          simp [h8, hlo, hhi, hn, hvb, hpb]
      · have hn : ¬ (i - startBit < numBits) := by omega
        cases hvb : v.testBit (i - startBit) <;> cases hpb : p.testBit i <;>
          simp [h8, hlo, hhi, hn, hvb, hpb]
    · cases hpb : p.testBit i <;> simp [h8, hlo, hpb]
  · have hc := testBit_of_lt_256 p i hp (by omega)
    have hhi : ¬ (i < startBit + numBits) := by omega
    have hn : ¬ (i - startBit < numBits) := by omega
    simp [h8, hc, hhi, hn]

/-- Witness for C26: a three-bit field at bit 2, `PORT = 0x81`, value `0x05`. -/
theorem write_bit_field_witness :
    FastIOOutputPort.write 2 3 0x05 0x81 = 0x95 ∧
      FastIOOutputPort.write 2 3 0x05 0x81 =
        (0x81 &&& (0xFF ^^^ (((1 <<< 3) - 1) <<< 2))) |||
          ((0x05 <<< 2) &&& (((1 <<< 3) - 1) <<< 2)) ∧
      ∀ i, (FastIOOutputPort.write 2 3 0x05 0x81).testBit i =
        if 2 ≤ i ∧ i < 2 + 3 then (0x05 : Nat).testBit (i - 2) else (0x81 : Nat).testBit i :=
  ⟨by decide, write_bit_field 2 3 0x81 0x05 (by decide) (by decide) (by decide)⟩

set_option maxRecDepth 100000 in
/-- Claim C30 at its failing input (SPI mode round trip). From `SPCR = 0`,
`setMode(SPI_MODE1)` leaves `SPCR = 0x04` (`CPHA` set), and `getMode()` then returns 0,
not 1: `getMode` masks with `CPHA | CPOL = 3`, the bit numbers, and shifts the result
away. With `SPCR = 0x5C` (mode 3 in effect) `setMode(SPI_MODE0)` returns 0 as the saved
mode. For every 8-bit content of `SPCR`, `getMode()` returns 0. -/
theorem getMode_always_zero :
    SpiMaster.setMode .SPI_MODE1 0 = (0, 0x04) ∧
      SpiMaster.getMode (SpiMaster.setMode .SPI_MODE1 0).2 = 0 ∧
      spiModes_t.SPI_MODE1.toNat = 1 ∧
      SpiMaster.setMode .SPI_MODE0 0x5C = (0, 0x50) ∧
      (∀ c : Fin 256, SpiMaster.getMode c.val = 0) := by
  refine ⟨by decide, by decide, by decide, by decide, by decide⟩

end AvrCore
